import Mathlib

/-!
# Phylanx: primitive names, the distributed matrix and the shuffle operation

A shallow embedding of

* `phylanx/execution_tree/compiler/primitive_name.hpp` (the parts of a
  primitive name, and the codec declared there),
* `phylanx/util/distributed_matrix.hpp` (the server side partition and the
  client side `distributed_matrix`), and
* `src/execution_tree/primitives/shuffle_operation.cpp` (the validation of
  the operands, the dispatch on the number of dimensions and the two
  kernels),

followed by the properties established about them.
-/

set_option autoImplicit false

deriving instance DecidableEq for Except

namespace phylanx.execution_tree.compiler

/-! ## `primitive_name.hpp` -/

/-- The struct `primitive_name_parts`.  The three `std::int64_t` members are
initialised to `-1` by the default constructor and the two `std::string`
members are default constructed (empty).  The member `instance` is spelled
`instance_` here. -/
structure primitive_name_parts where
  primitive : String := ""
  sequence_number : Int := -1
  instance_ : String := ""
  compile_id : Int := -1
  tag : Int := -1
  deriving DecidableEq, Repr

/-- Failure of `parse_primitive_name`. -/
inductive name_error where
  | MalformedNameError
  deriving DecidableEq, Repr

/-- Decimal rendering of one numeric field.  The sentinel `-1` stands for an
unset field and prints nothing; every other value prints in base ten, with a
leading minus sign when negative. -/
def render_number : Int → List Char
  | Int.ofNat k => Nat.toDigits 10 k
  | Int.negSucc 0 => []
  | Int.negSucc (k + 1) => '-' :: Nat.toDigits 10 (k + 2)

/-- Value of a decimal digit character. -/
def digit_value (c : Char) : Option Nat :=
  if 48 ≤ c.toNat ∧ c.toNat ≤ 57 then some (c.toNat - 48) else none

/-- Reads a run of decimal digits, most significant first. -/
def parse_digits : List Char → Nat → Option Nat
  | [], acc => some acc
  | c :: cs, acc =>
    match digit_value c with
    | some d => parse_digits cs (10 * acc + d)
    | none => none

/-- Reads one numeric field: the empty token is an unset field (`-1`),
otherwise an optional minus sign followed by at least one digit. -/
def parse_number : List Char → Option Int
  | [] => some (-1)
  | c :: rest =>
    if c = '-' then
      (if rest = [] then none else (parse_digits rest 0).map (fun k => -(k : Int)))
    else (parse_digits (c :: rest) 0).map (fun k => (k : Int))

/-- Splits a character sequence at every occurrence of the delimiter. -/
def split_on (sep : Char) : List Char → List (List Char)
  | [] => [[]]
  | c :: cs =>
    if c = sep then [] :: split_on sep cs
    else
      match split_on sep cs with
      | [] => [[c]]
      | h :: t => (c :: h) :: t

/-- Removes the given leading characters, when they are there. -/
def drop_leading : List Char → List Char → Option (List Char)
  | [], s => some s
  | _ :: _, [] => none
  | p :: ps, c :: cs => if p = c then drop_leading ps cs else none

/-- The leading part of every primitive name. -/
def name_root : List Char := "/phylanx/".toList

/-- Modelled from the spec: `compose_primitive_name` is declared in
`primitive_name.hpp` and its body is not part of the sources at hand.  The
canonical form is
`/phylanx/<primitive>#<sequence-nr>[#<instance>]/<compile_id>#<tag>`;
the `#<instance>` segment is left out when `instance` is empty and a numeric
field holding the sentinel `-1` is not printed. -/
def compose_chars (parts : primitive_name_parts) : List Char :=
  name_root ++ parts.primitive.toList ++ '#' :: render_number parts.sequence_number
    ++ (if parts.instance_.toList = [] then [] else '#' :: parts.instance_.toList)
    ++ '/' :: render_number parts.compile_id
    ++ '#' :: render_number parts.tag

/-- Modelled from the spec: see `compose_chars`. -/
def compose_primitive_name (parts : primitive_name_parts) : String :=
  String.mk (compose_chars parts)

/-- Modelled from the spec: `parse_primitive_name` is declared in
`primitive_name.hpp` and its body is not part of the sources at hand.  The
name is split on the `/` and `#` delimiters following the grammar
`/phylanx/<primitive>#<sequence-nr>[#<instance>]/<compile_id>#<tag>`; it is
malformed when it lacks the `/phylanx/` root or the `<compile_id>#<tag>`
suffix.  The instance is the token after the second `#`, present only when a
further `#` precedes the compile-id segment. -/
def parse_chars (name : List Char) : Except name_error primitive_name_parts :=
  match drop_leading name_root name with
  | none => .error .MalformedNameError
  | some rest =>
    match split_on '/' rest with
    | [head, suffix] =>
      match split_on '#' suffix with
      | [cid, tg] =>
        match parse_number cid, parse_number tg with
        | some c, some t =>
          match split_on '#' head with
          | [prim, seq] =>
            match parse_number seq with
            | some s => .ok ⟨String.mk prim, s, "", c, t⟩
            | none => .error .MalformedNameError
          | [prim, seq, inst] =>
            match parse_number seq with
            | some s => .ok ⟨String.mk prim, s, String.mk inst, c, t⟩
            | none => .error .MalformedNameError
          | _ => .error .MalformedNameError
        | _, _ => .error .MalformedNameError
      | _ => .error .MalformedNameError
    | _ => .error .MalformedNameError

/-- Modelled from the spec: see `parse_chars`. -/
def parse_primitive_name (name : String) : Except name_error primitive_name_parts :=
  parse_chars name.toList

end phylanx.execution_tree.compiler

namespace phylanx.util

/-! ## `distributed_matrix.hpp`: the containers and the runtime it uses -/

/-- The value `std::size_t(-1)`, the default of `num_sites` and `this_site`. -/
def npos : Nat := 2 ^ 64 - 1

/-- Subtraction of two `std::size_t` values. -/
def size_sub (a b : Nat) : Nat := (a + 2 ^ 64 - b % 2 ^ 64) % 2 ^ 64

/-- Conversion to `std::int64_t` (two's complement). -/
def wrap_int64 (x : Int) : Int := (x + 2 ^ 63) % 2 ^ 64 - 2 ^ 63

/-- What the element type `T` contributes: `sizeof(T)` and the number of
elements of one SIMD register (`1` for a type that is not vectorised). -/
structure element_traits where
  sizeof_T : Nat
  simdsize : Nat
  deriving DecidableEq, Repr

/-- `hpx::id_type`, a global component id.  The default constructed id is
invalid. -/
abbrev id_type := Nat

/-- The default constructed `hpx::id_type`. -/
def invalid_id : id_type := 0

/-- Error codes of the exceptions raised here. -/
inductive error_code where
  | no_success
  | invalid_argument
  | unknown_component_address
  | bad_parameter
  deriving DecidableEq, Repr

/-- An exception: error code, throwing function, message. -/
structure exception where
  code : error_code
  func : String
  msg : String
  deriving DecidableEq, Repr

/-- How a call ends: it returns a value, it throws, or it suspends waiting
for an event that does not occur. -/
inductive completion (α : Type) where
  | returned (a : α)
  | threw (e : exception)
  | suspended
  deriving DecidableEq, Repr

/-- The state of an `hpx::future` once it has completed: it holds a result
or an exception. -/
inductive future (α : Type) where
  | ready (r : α)
  | exceptional (e : exception)
  deriving DecidableEq, Repr

/-! ### `std::map` -/

/-- `std::map::find`. -/
def map_find {K V : Type} [DecidableEq K] : List (K × V) → K → Option V
  | [], _ => none
  | (k', v) :: t, k => if k' = k then some v else map_find t k

/-- `std::map::emplace`: inserts only when the key is absent. -/
def map_emplace {K V : Type} [DecidableEq K] (m : List (K × V)) (k : K) (v : V) :
    List (K × V) :=
  match map_find m k with
  | some _ => m
  | none => m ++ [(k, v)]

/-- The assignment `m[k] = v`. -/
def map_assign {K V : Type} [DecidableEq K] : List (K × V) → K → V → List (K × V)
  | [], k, v => [(k, v)]
  | (k', v') :: t, k, v =>
    if k' = k then (k, v) :: t else (k', v') :: map_assign t k v

/-- `std::map::erase` of a key. -/
def map_erase {K V : Type} [DecidableEq K] : List (K × V) → K → List (K × V)
  | [], _ => []
  | (k', v') :: t, k => if k' = k then t else (k', v') :: map_erase t k

/-! ### Blaze matrices -/

/-- `blaze::nextMultiple`. -/
def nextMultiple (value factor : Nat) : Nat :=
  if factor = 0 then value else value + (factor - value % factor) % factor

/-- The row length of a `DynamicMatrix` in memory: rows are padded to whole
SIMD registers. -/
def addPadding (tr : element_traits) (n : Nat) : Nat := nextMultiple n tr.simdsize

/-- `reference_type`, a `blaze::CustomMatrix`: `m_` rows and `n_` columns,
with the rows of elements in `v_`. -/
structure CustomMatrix (T : Type) where
  m_ : Nat
  n_ : Nat
  v_ : List (List T)
  deriving DecidableEq, Repr

/-- `data_type`, a `blaze::DynamicMatrix`: `m_` rows and `n_` columns, `nn_`
elements between the starts of two rows, `capacity_` allocated elements. -/
structure DynamicMatrix (T : Type) where
  m_ : Nat
  n_ : Nat
  nn_ : Nat
  capacity_ : Nat
  v_ : List (List T)
  deriving DecidableEq, Repr

/-- A matrix value is well formed when it has `m_` rows of `n_` elements and
its dimensions are `std::size_t` values. -/
def CustomMatrix.wf {T : Type} (a : CustomMatrix T) : Prop :=
  a.v_.length = a.m_ ∧ (∀ r ∈ a.v_, r.length = a.n_) ∧ a.m_ < 2 ^ 64 ∧ a.n_ < 2 ^ 64

/-- Element `(i, j)` of a matrix, when it is there. -/
def CustomMatrix.elem {T : Type} (a : CustomMatrix T) (i j : Nat) : Option T :=
  (a.v_[i]?).bind (fun r => r[j]?)

/-- `DynamicMatrix::rows`. -/
def DynamicMatrix.rows {T : Type} (a : DynamicMatrix T) : Nat := a.m_

/-- `DynamicMatrix::columns`. -/
def DynamicMatrix.columns {T : Type} (a : DynamicMatrix T) : Nat := a.n_

/-- `DynamicMatrix::capacity`. -/
def DynamicMatrix.capacity {T : Type} (a : DynamicMatrix T) : Nat := a.capacity_

/-- Element `(i, j)` of a matrix, when it is there. -/
def DynamicMatrix.elem {T : Type} (a : DynamicMatrix T) (i j : Nat) : Option T :=
  (a.v_[i]?).bind (fun r => r[j]?)

/-- Construction of a `DynamicMatrix` of the given size and elements: the
spacing is the padded row length and the capacity is `m * nn`. -/
def DynamicMatrix.create {T : Type} (tr : element_traits) (m n : Nat) (v : List (List T)) :
    DynamicMatrix T :=
  { m_ := m, n_ := n, nn_ := addPadding tr n, capacity_ := m * addPadding tr n, v_ := v }

/-- `blaze::submatrix(a, row, column, m, n)`: the block of `m` rows and `n`
columns starting at `(row, column)`; an `std::invalid_argument` is thrown
when the block does not lie within the matrix. -/
def submatrix {T : Type} (a : CustomMatrix T) (row column m n : Nat) :
    Except exception (CustomMatrix T) :=
  if row + m > a.m_ ∨ column + n > a.n_ then
    .error ⟨.invalid_argument, "blaze::submatrix", "Invalid submatrix specification"⟩
  else
    .ok { m_ := m, n_ := n
          v_ := ((a.v_.drop row).take m).map (fun r => (r.drop column).take n) }

namespace server

/-- The class `server::distributed_matrix_part`: the member `data_`. -/
structure distributed_matrix_part (T : Type) where
  data_ : CustomMatrix T
  deriving DecidableEq, Repr

/-- `distributed_matrix_part::fetch`: `return data_;`, converted to
`data_type`. -/
def distributed_matrix_part.fetch {T : Type} (tr : element_traits)
    (self : distributed_matrix_part T) : DynamicMatrix T :=
  DynamicMatrix.create tr self.data_.m_ self.data_.n_ self.data_.v_

/-- `distributed_matrix_part::fetch_part`. -/
def distributed_matrix_part.fetch_part {T : Type} (tr : element_traits)
    (self : distributed_matrix_part T)
    (start_row start_column stop_row stop_column : Nat) :
    Except exception (DynamicMatrix T) :=
  match submatrix self.data_ start_row start_column
      (size_sub stop_row start_row) (size_sub stop_column start_column) with
  | .error e => .error e
  | .ok s => .ok (DynamicMatrix.create tr s.m_ s.n_ s.v_)

end server

/-! ### The HPX runtime -/

/-- The part of the runtime the class talks to: the number of localities and
the id of this one, the AGAS symbol namespace (names are a base name with a
sequence number), the components addressed by their ids, the `std::int64_t`
cells that byte counters point to, and the record of the queries made to the
symbol namespace. -/
structure runtime (T : Type) where
  num_localities : Nat
  locality_id : Nat
  symbols : List ((String × Nat) × id_type)
  components : List (id_type × server.distributed_matrix_part T)
  memory : List (Nat × Int)
  queries : List (String × Nat)
  deriving DecidableEq, Repr

/-- `hpx::detail::name_from_basename`. -/
def name_from_basename (basename : String) (idx : Nat) : String × Nat := (basename, idx)

/-- An id that no component and no symbol uses, and that is valid. -/
def fresh_id {T : Type} (rt : runtime T) : id_type :=
  (rt.components.map Prod.fst ++ rt.symbols.map Prod.snd).foldr max 0 + 1

/-- `hpx::local_new<server::distributed_matrix_part<T>>(hpx::launch::sync, value)`:
creates a component holding `value` and returns its id. -/
def local_new {T : Type} (rt : runtime T) (value : CustomMatrix T) : id_type × runtime T :=
  (fresh_id rt, { rt with components := rt.components ++ [(fresh_id rt, ⟨value⟩)] })

/-- `hpx::register_with_basename(basename, id, sequence_nr).get()`: binds the
name to the id unless the name is bound already; the result tells whether it
did. -/
def register_with_basename {T : Type} (rt : runtime T) (basename : String) (id : id_type)
    (sequence_nr : Nat) : Bool × runtime T :=
  match map_find rt.symbols (name_from_basename basename sequence_nr) with
  | some _ => (false, rt)
  | none =>
    (true, { rt with symbols := rt.symbols ++ [(name_from_basename basename sequence_nr, id)] })

/-- `hpx::unregister_with_basename(basename, sequence_nr).get()`: removes the
binding of the name and returns the id it was bound to. -/
def unregister_with_basename {T : Type} (rt : runtime T) (basename : String)
    (sequence_nr : Nat) : id_type × runtime T :=
  ((map_find rt.symbols (name_from_basename basename sequence_nr)).getD invalid_id,
    { rt with symbols := map_erase rt.symbols (name_from_basename basename sequence_nr) })

/-- `hpx::get_ptr<server::distributed_matrix_part<T>>(hpx::launch::sync, id)`:
the pointer to the component, null when there is none. -/
def get_ptr {T : Type} (rt : runtime T) (id : id_type) : Option id_type :=
  match map_find rt.components id with
  | some _ => some id
  | none => none

/-- `hpx::async<fetch_action>(id)`, completed. -/
def async_fetch {T : Type} (tr : element_traits) (rt : runtime T) (id : id_type) :
    future (DynamicMatrix T) :=
  match map_find rt.components id with
  | some part => .ready (part.fetch tr)
  | none => .exceptional ⟨.unknown_component_address, "hpx::async", "no such component"⟩

/-- `hpx::async<fetch_part_action>(id, start_row, start_column, stop_row,
stop_column)`, completed. -/
def async_fetch_part {T : Type} (tr : element_traits) (rt : runtime T) (id : id_type)
    (start_row start_column stop_row stop_column : Nat) : future (DynamicMatrix T) :=
  match map_find rt.components id with
  | some part =>
    match part.fetch_part tr start_row start_column stop_row stop_column with
    | .ok r => .ready r
    | .error e => .exceptional e
  | none => .exceptional ⟨.unknown_component_address, "hpx::async", "no such component"⟩

/-! ### The class `distributed_matrix` -/

/-- The members of `distributed_matrix`.  `ptr_` is the pointer to the local
partition (null when `none`), `transferred_bytes_` the address of the byte
counter (null when `none`). -/
structure distributed_matrix where
  num_sites_ : Nat
  this_site_ : Nat
  basename_ : String
  ptr_ : Option id_type
  part_ids_ : List (Nat × id_type)
  transferred_bytes_ : Option Nat
  deriving DecidableEq, Repr

/-- The member initialisers of both constructors. -/
def distributed_matrix.init {T : Type} (rt : runtime T) (basename : String)
    (num_sites this_site : Nat) (transferred_bytes : Option Nat) : distributed_matrix :=
  { num_sites_ := if num_sites = npos then rt.num_localities else num_sites
    this_site_ := if this_site = npos then rt.locality_id else this_site
    basename_ := "dist_matrix_" ++ basename
    ptr_ := none
    part_ids_ := []
    transferred_bytes_ := transferred_bytes }

/-- `distributed_matrix::create_and_register_server`. -/
def distributed_matrix.create_and_register_server {T : Type} (self : distributed_matrix)
    (rt : runtime T) (value : CustomMatrix T) : id_type × distributed_matrix × runtime T :=
  let created := local_new rt value
  let part_id := created.1
  let registered := register_with_basename created.2 self.basename_ part_id self.this_site_
  let rt2 := registered.2
  (part_id,
    { self with part_ids_ := map_assign self.part_ids_ self.this_site_ part_id
                ptr_ := get_ptr rt2 part_id },
    rt2)

/-- The constructor `distributed_matrix(std::string basename, reference_type
const& data, std::size_t num_sites, std::size_t this_site, std::int64_t*
transferred_bytes)`.  The result holds how the constructor ends, the members
as they stand at that point, and the runtime. -/
def distributed_matrix.construct {T : Type} (rt : runtime T) (basename : String)
    (data : CustomMatrix T) (num_sites this_site : Nat) (transferred_bytes : Option Nat) :
    completion Unit × distributed_matrix × runtime T :=
  let self := distributed_matrix.init rt basename num_sites this_site transferred_bytes
  if self.this_site_ ≥ self.num_sites_ then
    (.threw ⟨.no_success, "distributed_matrix::distributed_matrix",
        "attempting to construct invalid part of the distributed object"⟩, self, rt)
  else
    let r := self.create_and_register_server rt data
    (.returned (), r.2.1, r.2.2)

/-- The constructor taking `reference_type&& data`: the same initialisers
and the same body, the data being moved instead of copied. -/
def distributed_matrix.construct_move {T : Type} (rt : runtime T) (basename : String)
    (data : CustomMatrix T) (num_sites this_site : Nat) (transferred_bytes : Option Nat) :
    completion Unit × distributed_matrix × runtime T :=
  let self := distributed_matrix.init rt basename num_sites this_site transferred_bytes
  if self.this_site_ ≥ self.num_sites_ then
    (.threw ⟨.no_success, "distributed_matrix::distributed_matrix",
        "attempting to construct invalid part of the distributed object"⟩, self, rt)
  else
    let r := self.create_and_register_server rt data
    (.returned (), r.2.1, r.2.2)

/-- The destructor `~distributed_matrix`. -/
def distributed_matrix.destroy {T : Type} (self : distributed_matrix) (rt : runtime T) :
    runtime T :=
  (unregister_with_basename rt self.basename_ self.this_site_).2

/-- `std::map::operator[]` read: the value under the key, a default
constructed one being inserted first when the key is absent. -/
def map_index (m : List (Nat × id_type)) (k : Nat) : id_type × List (Nat × id_type) :=
  match map_find m k with
  | some v => (v, m)
  | none => (invalid_id, m ++ [(k, invalid_id)])

/-- `distributed_matrix::get_part_id`.  `racing` lists the entries that other
threads emplace into `part_ids_` while this call has released
`part_ids_mtx_` (inside the `unlock_guard`); it is empty when no other thread
resolves a part at the same time. -/
def distributed_matrix.get_part_id {T : Type} (self : distributed_matrix) (rt : runtime T)
    (idx : Nat) (racing : List (Nat × id_type)) :
    completion id_type × distributed_matrix × runtime T :=
  if idx = self.this_site_ then
    let r := map_index self.part_ids_ idx
    (.returned r.1, { self with part_ids_ := r.2 }, rt)
  else if idx ≥ self.num_sites_ then
    (.threw ⟨.no_success, "distributed_matrix::get_part_id",
        "attempting to access invalid part of the distributed matrix"⟩, self, rt)
  else
    match map_find self.part_ids_ idx with
    | some id => (.returned id, self, rt)
    | none =>
      let rt1 := { rt with queries := rt.queries ++ [name_from_basename self.basename_ idx] }
      match map_find rt.symbols (name_from_basename self.basename_ idx) with
      | none => (.suspended, self, rt1)
      | some id =>
        let relocked := racing.foldl (fun m e => map_emplace m e.1 e.2) self.part_ids_
        match map_find relocked idx with
        | some found => (.returned found, { self with part_ids_ := relocked }, rt1)
        | none =>
          (.returned id, { self with part_ids_ := map_emplace relocked idx id }, rt1)

/-- The completion handler of both `fetch` overloads: when the future holds a
result `r`, `*transferred_bytes_ += r->capacity() * sizeof(T)`. -/
def distributed_matrix.on_completed {T : Type} (tr : element_traits) (rt : runtime T)
    (counter : Nat) (f : future (DynamicMatrix T)) : runtime T :=
  match f with
  | .ready r =>
    let added : Nat := r.capacity * tr.sizeof_T % 2 ^ 64
    let old : Int := (map_find rt.memory counter).getD 0
    { rt with memory := map_assign rt.memory counter (wrap_int64 (old + Int.ofNat added)) }
  | .exceptional _ => rt

/-- `distributed_matrix::fetch(std::size_t idx)`. -/
def distributed_matrix.fetch {T : Type} (tr : element_traits) (self : distributed_matrix)
    (rt : runtime T) (idx : Nat) (racing : List (Nat × id_type)) :
    completion (future (DynamicMatrix T)) × distributed_matrix × runtime T :=
  match self.get_part_id rt idx racing with
  | (.threw e, self1, rt1) => (.threw e, self1, rt1)
  | (.suspended, self1, rt1) => (.suspended, self1, rt1)
  | (.returned id, self1, rt1) =>
    let f := async_fetch tr rt1 id
    match self1.transferred_bytes_ with
    | some counter => (.returned f, self1, distributed_matrix.on_completed tr rt1 counter f)
    | none => (.returned f, self1, rt1)

/-- `distributed_matrix::fetch(std::size_t idx, std::size_t start_row,
std::size_t start_column, std::size_t stop_row, std::size_t stop_column)`. -/
def distributed_matrix.fetch_range {T : Type} (tr : element_traits)
    (self : distributed_matrix) (rt : runtime T) (idx : Nat)
    (start_row start_column stop_row stop_column : Nat) (racing : List (Nat × id_type)) :
    completion (future (DynamicMatrix T)) × distributed_matrix × runtime T :=
  match self.get_part_id rt idx racing with
  | (.threw e, self1, rt1) => (.threw e, self1, rt1)
  | (.suspended, self1, rt1) => (.suspended, self1, rt1)
  | (.returned id, self1, rt1) =>
    let f := async_fetch_part tr rt1 id start_row start_column stop_row stop_column
    match self1.transferred_bytes_ with
    | some counter => (.returned f, self1, distributed_matrix.on_completed tr rt1 counter f)
    | none => (.returned f, self1, rt1)

end phylanx.util

/-! ## The matrices as objects in memory -/

namespace phylanx.util

/-- The arrays of elements in memory, each under the address it lies at. -/
abbrev element_memory (T : Type) := List (Nat × List (List T))

/-- The address that an allocation returns: one at which no array lies. -/
def new_address {T : Type} (mem : element_memory T) : Nat :=
  (mem.map Prod.fst).foldr max 0 + 1

/-- A `blaze::CustomMatrix` object (`reference_type`): it does not own its
elements, it refers to the array at `pointer_`. -/
structure CustomMatrixObject where
  pointer_ : Nat
  m_ : Nat
  n_ : Nat
  deriving DecidableEq, Repr

/-- A `blaze::DynamicMatrix` object (`data_type`): it owns the array at
`v_`. -/
structure DynamicMatrixObject where
  v_ : Nat
  m_ : Nat
  n_ : Nat
  nn_ : Nat
  capacity_ : Nat
  deriving DecidableEq, Repr

/-- The matrix that a `CustomMatrix` object stands for, its elements read
from memory. -/
def CustomMatrixObject.value {T : Type} (o : CustomMatrixObject) (mem : element_memory T) :
    Option (CustomMatrix T) :=
  (map_find mem o.pointer_).map (fun v => ⟨o.m_, o.n_, v⟩)

/-- The matrix that a `DynamicMatrix` object stands for, its elements read
from memory. -/
def DynamicMatrixObject.value {T : Type} (o : DynamicMatrixObject) (mem : element_memory T) :
    Option (DynamicMatrix T) :=
  (map_find mem o.v_).map (fun v => ⟨o.m_, o.n_, o.nn_, o.capacity_, v⟩)

/-- The assignment `a(i, j) = x` to an element of a `DynamicMatrix` object:
a write into the array the object owns. -/
def DynamicMatrixObject.assign {T : Type} (o : DynamicMatrixObject) (mem : element_memory T)
    (i j : Nat) (x : T) : element_memory T :=
  match map_find mem o.v_ with
  | none => mem
  | some v =>
    match v[i]? with
    | none => mem
    | some r => map_assign mem o.v_ (v.set i (r.set j x))

namespace server

/-- The object of class `server::distributed_matrix_part` in memory: the
member `data_`, a `CustomMatrix` object. -/
structure distributed_matrix_part_object where
  data_ : CustomMatrixObject
  deriving DecidableEq, Repr

/-- `distributed_matrix_part::fetch` on the objects: `return data_;` with
the return type `data_type` constructs a `DynamicMatrix` from `data_`, which
allocates an array of its own and copies the elements into it. -/
def distributed_matrix_part_object.fetch {T : Type} (tr : element_traits)
    (self : distributed_matrix_part_object) (mem : element_memory T) :
    Option DynamicMatrixObject × element_memory T :=
  match map_find mem self.data_.pointer_ with
  | none => (none, mem)
  | some v =>
    (some ⟨new_address mem, self.data_.m_, self.data_.n_, addPadding tr self.data_.n_,
        self.data_.m_ * addPadding tr self.data_.n_⟩,
      mem ++ [(new_address mem, v)])

end server

end phylanx.util

/-! ## Construction followed by destruction -/

namespace phylanx.util

/-- The runtime after an array is constructed and then destroyed. -/
def construct_then_destroy {T : Type} (rt : runtime T) (basename : String)
    (data : CustomMatrix T) (num_sites this_site : Nat) (transferred_bytes : Option Nat) :
    runtime T :=
  (distributed_matrix.construct rt basename data num_sites this_site transferred_bytes).2.1.destroy
    (distributed_matrix.construct rt basename data num_sites this_site transferred_bytes).2.2

end phylanx.util

/-! ## `shuffle_operation.cpp` -/

namespace phylanx.util

/-- A `blaze::DynamicMatrix` is well formed when it has `m_` rows of `n_`
elements. -/
def DynamicMatrix.wf {T : Type} (a : DynamicMatrix T) : Prop :=
  a.v_.length = a.m_ ∧ ∀ r ∈ a.v_, r.length = a.n_

end phylanx.util

namespace blaze

/-- `blaze::swap(Row<T>&& x, Row<T>&& y)`: the elements are exchanged pair
by pair until one of the rows ends. -/
def swap {α : Type} : List α → List α → List α × List α
  | a :: x, b :: y => (b :: (swap x y).1, a :: (swap x y).2)
  | x, y => (x, y)

end blaze

namespace phylanx.ir

/-- `ir::node_data<double>`, the element type left open: a scalar, a vector,
a matrix or a tensor. -/
inductive node_data (α : Type) where
  | scalar (s : α)
  | vector (v : List α)
  | matrix (m : phylanx.util.DynamicMatrix α)
  | tensor (t : List (List (List α)))
  deriving DecidableEq, Repr

/-- `node_data::num_dimensions`. -/
def node_data.num_dimensions {α : Type} : node_data α → Nat
  | .scalar _ => 0
  | .vector _ => 1
  | .matrix _ => 2
  | .tensor _ => 3

end phylanx.ir

namespace phylanx.execution_tree.primitives

open phylanx.util (exception future DynamicMatrix)
open phylanx.ir (node_data)

/-- `primitive_argument_type`: the empty alternative `nil`, a numeric value,
or any other alternative (a string, a list, a primitive still to be
evaluated, ...). -/
inductive primitive_argument_type (α : Type) where
  | nil
  | numeric (d : node_data α)
  | other (label : String)
  deriving DecidableEq, Repr

/-- `valid(primitive_argument_type const&)`: every alternative but `nil`. -/
def valid {α : Type} : primitive_argument_type α → Bool
  | .nil => false
  | _ => true

/-- The state of `std::mt19937`, seen as the outputs it is going to produce. -/
structure mt19937 where
  outputs : Nat → Nat

/-- One call of the generator. -/
def mt19937.call (g : mt19937) : Nat × mt19937 :=
  (g.outputs 0, ⟨fun k => g.outputs (k + 1)⟩)

/-- An index in `[0, bound]` taken from the generator, one call for one
index. -/
def uniform_index (g : mt19937) (bound : Nat) : Nat × mt19937 :=
  (g.call.1 % (bound + 1), g.call.2)

/-- One iteration of the loop of `std::shuffle`, at position `i`: an index
`j` in `[0, i]` from the generator, then `iter_swap` of the positions `i`
and `j`. -/
def shuffle_step {β : Type} (iter_swap : List β → Nat → Nat → List β) (i : Nat) (x : List β)
    (g : mt19937) : List β × mt19937 :=
  (iter_swap x i (uniform_index g i).1, (uniform_index g i).2)

/-- The loop of `std::shuffle`: `count` iterations from position `i` on. -/
def shuffle_loop {β : Type} (iter_swap : List β → Nat → Nat → List β) :
    Nat → Nat → List β → mt19937 → List β × mt19937
  | 0, _, x, g => (x, g)
  | count + 1, i, x, g =>
    shuffle_loop iter_swap count (i + 1) (shuffle_step iter_swap i x g).1
      (shuffle_step iter_swap i x g).2

/-- `std::shuffle(first, last, g)` over `size` positions: one iteration for
every position after the first. -/
def std_shuffle {β : Type} (iter_swap : List β → Nat → Nat → List β) (size : Nat) (x : List β)
    (g : mt19937) : List β × mt19937 :=
  shuffle_loop iter_swap (size - 1) 1 x g

/-- `std::iter_swap` on the elements of a vector. -/
def iter_swap {α : Type} (x : List α) (i j : Nat) : List α :=
  match x[i]?, x[j]? with
  | some a, some b => (x.set i b).set j a
  | _, _ => x

/-- `std::iter_swap` on two `matrix_row_iterator`s: `blaze::swap` of the
rows they refer to.  When both refer to the same row, every element is
exchanged with itself. -/
def iter_swap_rows {α : Type} (v : List (List α)) (i j : Nat) : List (List α) :=
  match v[i]?, v[j]? with
  | some x, some y =>
    if i = j then v else (v.set i (blaze.swap x y).1).set j (blaze.swap x y).2
  | _, _ => v

/-- What becomes of the body handed to `hpx::dataflow`: an operand failed and
the body did not run, the body returned a value, the body threw, or the body
read `args[0]` of an empty vector, which is undefined. -/
inductive body_outcome (α : Type) where
  | operand_failed (e : exception)
  | result (v : primitive_argument_type α)
  | raised (e : exception)
  | undefined
  deriving DecidableEq, Repr

/-- How `eval` ends: it throws before anything is scheduled, or it returns
the future of the scheduled body. -/
inductive eval_outcome (α : Type) where
  | threw (e : exception)
  | scheduled (f : body_outcome α)
  deriving DecidableEq, Repr

/-- The members of `shuffle_operation` (those of `primitive_component_base`). -/
structure shuffle_operation (α : Type) where
  operands_ : List (primitive_argument_type α)
  name_ : String
  codename_ : String
  deriving DecidableEq, Repr

/-- What `shuffle_operation::eval` calls and is defined elsewhere:
`execution_tree::generate_error_message(msg, name, codename)` and the
evaluation of one operand to a numeric value, as `detail::map_operands` with
`functional::numeric_operand` does it. -/
structure externals (α : Type) where
  generate_error_message : String → String → String → String
  numeric_operand :
    primitive_argument_type α → List (primitive_argument_type α) → String → String →
      future (node_data α)

/-- `shuffle_operation::shuffle_1d`, with `rand_machine` passed in and out. -/
def shuffle_operation.shuffle_1d {α : Type} (args : List (node_data α)) (rand_machine : mt19937) :
    body_outcome α × mt19937 :=
  match args with
  | [] => (.undefined, rand_machine)
  | .vector x :: _ =>
    (.result (.numeric (.vector (std_shuffle iter_swap x.length x rand_machine).1)),
      (std_shuffle iter_swap x.length x rand_machine).2)
  | _ :: _ =>
    (.raised ⟨.bad_parameter, "node_data::vector", "the value is not a vector"⟩, rand_machine)

/-- `shuffle_operation::shuffle_2d`, with `rand_machine` passed in and out. -/
def shuffle_operation.shuffle_2d {α : Type} (args : List (node_data α)) (rand_machine : mt19937) :
    body_outcome α × mt19937 :=
  match args with
  | [] => (.undefined, rand_machine)
  | .matrix x :: _ =>
    (.result (.numeric (.matrix
        { x with v_ := (std_shuffle iter_swap_rows x.rows x.v_ rand_machine).1 })),
      (std_shuffle iter_swap_rows x.rows x.v_ rand_machine).2)
  | _ :: _ =>
    (.raised ⟨.bad_parameter, "node_data::matrix", "the value is not a matrix"⟩, rand_machine)

/-- The lambda that `eval` hands to `hpx::dataflow`, applied to the resolved
operands. -/
def shuffle_operation.body {α : Type} (ext : externals α) (self : shuffle_operation α)
    (args : List (node_data α)) (rand_machine : mt19937) : body_outcome α × mt19937 :=
  match args with
  | [] => (.undefined, rand_machine)
  | a :: _ =>
    match a.num_dimensions with
    | 1 => shuffle_operation.shuffle_1d args rand_machine
    | 2 => shuffle_operation.shuffle_2d args rand_machine
    | _ =>
      (.raised ⟨.bad_parameter, "shuffle_operation::eval",
        ext.generate_error_message
          "operand has an unsupported number of dimensions. Only possible values are: 1 or 2."
          self.name_ self.codename_⟩, rand_machine)

/-- The loop of `eval` over the operands: `arguments_valid`. -/
def arguments_valid {α : Type} (operands : List (primitive_argument_type α)) : Bool :=
  operands.foldl (fun ok operand => if !valid operand then false else ok) true

/-- The values of the operand futures once all have completed, or the first
exception among them. -/
def unwrapping {α : Type} : List (future (node_data α)) → Except exception (List (node_data α))
  | [] => .ok []
  | .exceptional e :: _ => .error e
  | .ready r :: fs =>
    match unwrapping fs with
    | .ok rs => .ok (r :: rs)
    | .error e => .error e

/-- `shuffle_operation::eval(operands, args)`, with `rand_machine` passed in
and out. -/
def shuffle_operation.eval {α : Type} (ext : externals α) (self : shuffle_operation α)
    (operands args : List (primitive_argument_type α)) (rand_machine : mt19937) :
    eval_outcome α × mt19937 :=
  if !arguments_valid operands then
    (.threw ⟨.bad_parameter, "shuffle_operation::eval",
      ext.generate_error_message
        "the shuffle_operation primitive requires that the arguments given by the operands array are valid"
        self.name_ self.codename_⟩, rand_machine)
  else
    match unwrapping
        (operands.map (fun operand => ext.numeric_operand operand args self.name_ self.codename_))
      with
    | .error e => (.scheduled (.operand_failed e), rand_machine)
    | .ok resolved =>
      (.scheduled (self.body ext resolved rand_machine).1, (self.body ext resolved rand_machine).2)

/-- The empty argument vector `noargs`. -/
def noargs {α : Type} : List (primitive_argument_type α) := []

/-- `shuffle_operation::eval(args)`. -/
def shuffle_operation.eval_args {α : Type} (ext : externals α) (self : shuffle_operation α)
    (args : List (primitive_argument_type α)) (rand_machine : mt19937) :
    eval_outcome α × mt19937 :=
  if self.operands_.isEmpty then self.eval ext args noargs rand_machine
  else self.eval ext self.operands_ args rand_machine

end phylanx.execution_tree.primitives

/-! ## Example values -/

namespace phylanx.execution_tree.primitives

/-- A generator whose outputs are `0, 1, 2, ...`. -/
def g_counting : mt19937 := ⟨fun k => k⟩

/-- Externals for the examples: a message made of name, codename and text,
and operands that are numeric values or fail. -/
def ext_plain : externals Nat :=
  { generate_error_message := fun msg name codename => name ++ "(" ++ codename ++ "): " ++ msg
    numeric_operand := fun operand _ _ _ =>
      match operand with
      | .numeric d => .ready d
      | _ => .exceptional ⟨.bad_parameter, "numeric_operand", "not a numeric value"⟩ }

/-- A node without stored operands. -/
def node_bare : shuffle_operation Nat := ⟨[], "/phylanx/shuffle_operation#0/0#1", "test"⟩

/-- A matrix of three rows and two columns. -/
def m32 : phylanx.util.DynamicMatrix Nat := ⟨3, 2, 2, 6, [[1, 2], [3, 4], [5, 6]]⟩

end phylanx.execution_tree.primitives

namespace phylanx.util

/-- A runtime of three localities, this one being locality `0`, with nothing
registered and one byte counter, at address `100`, holding zero. -/
def rt_empty : runtime Nat := ⟨3, 0, [], [], [(100, 0)], []⟩

/-- A runtime in which the name of site `1` of the base name `m` is bound
already, to a component with id `9`. -/
def rt_bound : runtime Nat :=
  ⟨3, 0, [(("dist_matrix_m", 1), 9)], [(9, ⟨⟨1, 1, [[5]]⟩⟩)], [(100, 0)], []⟩

/-- A matrix of four rows and four columns. -/
def d44 : CustomMatrix Nat :=
  ⟨4, 4, [[0, 1, 2, 3], [10, 11, 12, 13], [20, 21, 22, 23], [30, 31, 32, 33]]⟩

/-- A matrix of one row and three columns. -/
def d13 : CustomMatrix Nat := ⟨1, 3, [[7, 8, 9]]⟩

/-- Elements of eight bytes, four to a SIMD register. -/
def tr_simd4 : element_traits := ⟨8, 4⟩

/-- A memory with the elements of `d44` at the address `1`. -/
def mem_d44 : element_memory Nat := [(1, d44.v_)]

/-- The partition object whose `data_` refers to the array at the address
`1`, as four rows and four columns. -/
def part_object_d44 : server.distributed_matrix_part_object := ⟨⟨1, 4, 4⟩⟩

/-- The members of the matrix `m` constructed from `d44` on site `1` of
three, counting bytes at address `100`. -/
def dm_m1 : distributed_matrix :=
  (distributed_matrix.construct rt_empty "m" d44 3 1 (some 100)).2.1

/-- The runtime after that construction. -/
def rt_m1 : runtime Nat :=
  (distributed_matrix.construct rt_empty "m" d44 3 1 (some 100)).2.2

/-- The members of the matrix `m` constructed from `d44` on site `2` of
three, after the one on site `1`. -/
def dm_m2 : distributed_matrix :=
  (distributed_matrix.construct rt_m1 "m" d44 3 2 none).2.1

/-- The runtime after both constructions. -/
def rt_m12 : runtime Nat :=
  (distributed_matrix.construct rt_m1 "m" d44 3 2 none).2.2

/-- The matrix `m` of site `2` after it has resolved the part of site `1`,
whose id it has cached. -/
def dm_m2_cached : distributed_matrix := (dm_m2.get_part_id rt_m12 1 []).2.1

/-- The runtime after the matrix `m` of site `1` is destroyed and a new one
is constructed there from `d13`, the matrix of site `2` staying in place. -/
def rt_m1_rebuilt : runtime Nat :=
  (distributed_matrix.construct (dm_m1.destroy (dm_m2.get_part_id rt_m12 1 []).2.2)
    "m" d13 3 1 none).2.2

/-- The members of the matrix `v` constructed from `d13` on site `1` of
three, counting bytes at address `100`. -/
def dm_v1 : distributed_matrix :=
  (distributed_matrix.construct rt_empty "v" d13 3 1 (some 100)).2.1

/-- The runtime after that construction. -/
def rt_v1 : runtime Nat :=
  (distributed_matrix.construct rt_empty "v" d13 3 1 (some 100)).2.2

end phylanx.util

/-! ## Properties of the name codec -/

namespace phylanx.execution_tree.compiler

theorem digit_value_digitChar (d : Nat) (h : d < 10) :
    digit_value (Nat.digitChar d) = some d := by
  interval_cases d <;> rfl

theorem digitChar_is_digit (d : Nat) (h : d < 10) :
    48 ≤ (Nat.digitChar d).toNat ∧ (Nat.digitChar d).toNat ≤ 57 := by
  interval_cases d <;> decide

/-- Reading back the digits that `Nat.toDigitsCore` puts in front of `ds`. -/
theorem parse_digits_toDigitsCore (fuel : Nat) :
    ∀ (n : Nat) (ds : List Char) (acc : Nat), n < fuel →
      ∃ k, parse_digits (Nat.toDigitsCore 10 fuel n ds) acc
        = parse_digits ds (acc * 10 ^ k + n) := by
  induction fuel with
  | zero => intro n ds acc h; omega
  | succ fuel ih =>
    intro n ds acc h
    unfold Nat.toDigitsCore
    by_cases h0 : n / 10 = 0
    · have hn : n < 10 := by omega
      refine ⟨1, ?_⟩
      simp only [h0, if_true]
      have hm : n % 10 = n := Nat.mod_eq_of_lt hn
      rw [hm]
      simp only [parse_digits, digit_value_digitChar n hn]
      congr 1
      omega
    · simp only [h0, if_false]
      have hlt : n / 10 < fuel := by omega
      obtain ⟨k, hk⟩ := ih (n / 10) (Nat.digitChar (n % 10) :: ds) acc hlt
      refine ⟨k + 1, ?_⟩
      rw [hk]
      simp only [parse_digits, digit_value_digitChar (n % 10) (Nat.mod_lt n (by decide))]
      congr 1
      have := Nat.div_add_mod n 10
      rw [pow_succ]
      nlinarith [Nat.div_add_mod n 10]

theorem parse_digits_toDigits (n : Nat) : parse_digits (Nat.toDigits 10 n) 0 = some n := by
  obtain ⟨k, hk⟩ := parse_digits_toDigitsCore (n + 1) n [] 0 (Nat.lt_succ_self n)
  unfold Nat.toDigits
  rw [hk]
  simp [parse_digits]

/-- Every character that `Nat.toDigitsCore` produces is a decimal digit. -/
theorem toDigitsCore_digits (fuel : Nat) :
    ∀ (n : Nat) (ds : List Char) (c : Char), c ∈ Nat.toDigitsCore 10 fuel n ds →
      (48 ≤ c.toNat ∧ c.toNat ≤ 57) ∨ c ∈ ds := by
  induction fuel with
  | zero => intro n ds c h; right; simpa [Nat.toDigitsCore] using h
  | succ fuel ih =>
    intro n ds c h
    unfold Nat.toDigitsCore at h
    by_cases h0 : n / 10 = 0
    · simp only [h0, if_true, List.mem_cons] at h
      rcases h with h | h
      · left; rw [h]; exact digitChar_is_digit _ (Nat.mod_lt n (by decide))
      · right; exact h
    · simp only [h0, if_false] at h
      rcases ih _ _ c h with h | h
      · left; exact h
      · rw [List.mem_cons] at h
        rcases h with h | h
        · left; rw [h]; exact digitChar_is_digit _ (Nat.mod_lt n (by decide))
        · right; exact h

theorem toDigits_digits (n : Nat) (c : Char) (h : c ∈ Nat.toDigits 10 n) :
    48 ≤ c.toNat ∧ c.toNat ≤ 57 := by
  rcases toDigitsCore_digits (n + 1) n [] c h with h | h
  · exact h
  · simp at h

theorem toDigits_ne_nil (n : Nat) : Nat.toDigits 10 n ≠ [] := by
  unfold Nat.toDigits Nat.toDigitsCore
  by_cases h0 : n / 10 = 0
  · simp [h0]
  · simp only [h0, if_false]
    intro h
    have hl := Nat.toDigitsCore_lens_eq 10 n (n / 10) (Nat.digitChar (n % 10)) []
    rw [h] at hl
    simp at hl

theorem parse_number_render (k : Nat) :
    parse_number (render_number (Int.ofNat k)) = some (Int.ofNat k) := by
  unfold render_number
  have hne := toDigits_ne_nil k
  have hd := toDigits_digits k
  have hp := parse_digits_toDigits k
  cases hl : Nat.toDigits 10 k with
  | nil => exact absurd hl hne
  | cons c rest =>
    rw [hl] at hd hp
    have hc : c ≠ '-' := by
      intro h
      have := hd c (List.mem_cons_self _ _)
      rw [h] at this
      revert this
      decide
    show parse_number (Nat.toDigits 10 k) = some (Int.ofNat k)
    rw [hl]
    simp [parse_number, hc, hp]

theorem split_on_not_mem (sep : Char) (xs : List Char) (h : sep ∉ xs) :
    split_on sep xs = [xs] := by
  induction xs with
  | nil => rfl
  | cons c cs ih =>
    have hc : c ≠ sep := fun e => h (e ▸ List.mem_cons_self _ _)
    have hcs : sep ∉ cs := fun m => h (List.mem_cons_of_mem _ m)
    simp [split_on, hc, ih hcs]

theorem split_on_append (sep : Char) (xs ys : List Char) (h : sep ∉ xs) :
    split_on sep (xs ++ sep :: ys) = xs :: split_on sep ys := by
  induction xs with
  | nil => simp [split_on]
  | cons c cs ih =>
    have hc : c ≠ sep := fun e => h (e ▸ List.mem_cons_self _ _)
    have hcs : sep ∉ cs := fun m => h (List.mem_cons_of_mem _ m)
    simp [split_on, hc, ih hcs]

theorem drop_leading_append (p s : List Char) : drop_leading p (p ++ s) = some s := by
  induction p with
  | nil => cases s <;> rfl
  | cons c cs ih => simp [drop_leading, ih]

theorem digits_free_of (n : Nat) (sep : Char) (hsep : ¬ (48 ≤ sep.toNat ∧ sep.toNat ≤ 57)) :
    sep ∉ Nat.toDigits 10 n :=
  fun h => hsep (toDigits_digits n sep h)

theorem hash_not_digit : ¬ (48 ≤ '#'.toNat ∧ '#'.toNat ≤ 57) := by decide

theorem slash_not_digit : ¬ (48 ≤ '/'.toNat ∧ '/'.toNat ≤ 57) := by decide

/-- The round trip on character sequences, numeric fields given as naturals. -/
theorem parse_compose_chars (prim inst : List Char) (s c t : Nat)
    (hp : ∀ x ∈ prim, x ≠ '#' ∧ x ≠ '/') (hi : ∀ x ∈ inst, x ≠ '#' ∧ x ≠ '/') :
    parse_chars (compose_chars ⟨String.mk prim, Int.ofNat s, String.mk inst, Int.ofNat c,
        Int.ofNat t⟩)
      = .ok ⟨String.mk prim, Int.ofNat s, String.mk inst, Int.ofNat c, Int.ofNat t⟩ := by
  have hp1 : '#' ∉ prim := fun m => (hp _ m).1 rfl
  have hp2 : '/' ∉ prim := fun m => (hp _ m).2 rfl
  have hi1 : '#' ∉ inst := fun m => (hi _ m).1 rfl
  have hi2 : '/' ∉ inst := fun m => (hi _ m).2 rfl
  have ds1 := digits_free_of s '#' hash_not_digit
  have ds2 := digits_free_of s '/' slash_not_digit
  have dc1 := digits_free_of c '#' hash_not_digit
  have dc2 := digits_free_of c '/' slash_not_digit
  have dt1 := digits_free_of t '#' hash_not_digit
  have dt2 := digits_free_of t '/' slash_not_digit
  have hsuffix : split_on '#' (Nat.toDigits 10 c ++ '#' :: Nat.toDigits 10 t)
      = [Nat.toDigits 10 c, Nat.toDigits 10 t] := by
    rw [split_on_append _ _ _ dc1, split_on_not_mem _ _ dt1]
  have hnc := parse_number_render c
  have hnt := parse_number_render t
  have hns := parse_number_render s
  simp only [render_number] at hnc hnt hns
  by_cases hinst : inst = []
  · subst hinst
    have hshape : compose_chars ⟨String.mk prim, Int.ofNat s, String.mk [], Int.ofNat c,
        Int.ofNat t⟩
        = name_root ++ ((prim ++ '#' :: Nat.toDigits 10 s)
            ++ '/' :: (Nat.toDigits 10 c ++ '#' :: Nat.toDigits 10 t)) := by
      simp [compose_chars, render_number]
    have hfree : '/' ∉ prim ++ '#' :: Nat.toDigits 10 s := by
      simp only [List.mem_append, List.mem_cons, not_or]
      exact ⟨hp2, by decide, ds2⟩
    have hfree2 : '/' ∉ Nat.toDigits 10 c ++ '#' :: Nat.toDigits 10 t := by
      simp only [List.mem_append, List.mem_cons, not_or]
      exact ⟨dc2, by decide, dt2⟩
    have hhead : split_on '#' (prim ++ '#' :: Nat.toDigits 10 s)
        = [prim, Nat.toDigits 10 s] := by
      rw [split_on_append _ _ _ hp1, split_on_not_mem _ _ ds1]
    rw [hshape]
    unfold parse_chars
    rw [drop_leading_append]
    simp only [split_on_append _ _ _ hfree, split_on_not_mem _ _ hfree2, hsuffix, hnc, hnt,
      hhead, hns]
  · have hshape : compose_chars ⟨String.mk prim, Int.ofNat s, String.mk inst, Int.ofNat c,
        Int.ofNat t⟩
        = name_root ++ ((prim ++ '#' :: (Nat.toDigits 10 s ++ '#' :: inst))
            ++ '/' :: (Nat.toDigits 10 c ++ '#' :: Nat.toDigits 10 t)) := by
      simp [compose_chars, render_number, hinst]
    have hfree : '/' ∉ prim ++ '#' :: (Nat.toDigits 10 s ++ '#' :: inst) := by
      simp only [List.mem_append, List.mem_cons, not_or]
      exact ⟨hp2, by decide, ds2, by decide, hi2⟩
    have hfree2 : '/' ∉ Nat.toDigits 10 c ++ '#' :: Nat.toDigits 10 t := by
      simp only [List.mem_append, List.mem_cons, not_or]
      exact ⟨dc2, by decide, dt2⟩
    have hhead : split_on '#' (prim ++ '#' :: (Nat.toDigits 10 s ++ '#' :: inst))
        = [prim, Nat.toDigits 10 s, inst] := by
      rw [split_on_append _ _ _ hp1, split_on_append _ _ _ ds1, split_on_not_mem _ _ hi1]
    rw [hshape]
    unfold parse_chars
    rw [drop_leading_append]
    simp only [split_on_append _ _ _ hfree, split_on_not_mem _ _ hfree2, hsuffix, hnc, hnt,
      hhead, hns]

/-- C1, as amended: for every `primitive_name_parts` whose three numeric
fields are non-negative and whose `primitive` and `instance` contain neither
of the delimiters `#` and `/`, parsing the composed name returns exactly the
parts that were composed (so an empty instance comes back empty). -/
theorem parse_compose_round_trip (p : primitive_name_parts)
    (hs : 0 ≤ p.sequence_number) (hc : 0 ≤ p.compile_id) (ht : 0 ≤ p.tag)
    (hp : ∀ x ∈ p.primitive.toList, x ≠ '#' ∧ x ≠ '/')
    (hi : ∀ x ∈ p.instance_.toList, x ≠ '#' ∧ x ≠ '/') :
    parse_primitive_name (compose_primitive_name p) = .ok p := by
  obtain ⟨prim, s, inst, c, t⟩ := p
  obtain ⟨prim⟩ := prim
  obtain ⟨inst⟩ := inst
  obtain ⟨s, rfl⟩ := Int.eq_ofNat_of_zero_le hs
  obtain ⟨c, rfl⟩ := Int.eq_ofNat_of_zero_le hc
  obtain ⟨t, rfl⟩ := Int.eq_ofNat_of_zero_le ht
  exact parse_compose_chars prim inst s c t hp hi

/-- The round trip of C1 at the parts of `/phylanx/access-argument#0#x/2#0`
and at parts without an instance. -/
theorem parse_compose_round_trip_witness :
    parse_primitive_name (compose_primitive_name ⟨"access-argument", 0, "x", 2, 0⟩)
        = .ok ⟨"access-argument", 0, "x", 2, 0⟩ :=
  parse_compose_round_trip ⟨"access-argument", 0, "x", 2, 0⟩ (by decide) (by decide)
    (by decide) (by decide) (by decide)

/-- C1 as stated fails: the parts `{"a#1", 2, "", 0, 0}` have non-negative
numeric fields, they compose to the same name as `{"a", 1, "2", 0, 0}`, and
parsing that name returns the latter, not the former. -/
theorem parse_compose_round_trip_counterexample :
    (0 ≤ (⟨"a#1", 2, "", 0, 0⟩ : primitive_name_parts).sequence_number
      ∧ 0 ≤ (⟨"a#1", 2, "", 0, 0⟩ : primitive_name_parts).compile_id
      ∧ 0 ≤ (⟨"a#1", 2, "", 0, 0⟩ : primitive_name_parts).tag)
    ∧ compose_primitive_name ⟨"a#1", 2, "", 0, 0⟩ = compose_primitive_name ⟨"a", 1, "2", 0, 0⟩
    ∧ parse_primitive_name (compose_primitive_name ⟨"a#1", 2, "", 0, 0⟩)
        = .ok ⟨"a", 1, "2", 0, 0⟩
    ∧ parse_primitive_name (compose_primitive_name ⟨"a#1", 2, "", 0, 0⟩)
        ≠ .ok ⟨"a#1", 2, "", 0, 0⟩ := by
  decide

/-- C2: a composed name is `/phylanx/<primitive>#<sequence-nr>`, then
`#<instance>` unless the instance is empty, then `/<compile_id>#<tag>`; the
parts `{"add", 3, "", 1, 7}` give `/phylanx/add#3/1#7` and the parts
`{"access-argument", 0, "x", 2, 0}` give `/phylanx/access-argument#0#x/2#0`. -/
theorem compose_primitive_name_canonical :
    (∀ (prim inst : String) (s c t : Nat),
      compose_primitive_name ⟨prim, Int.ofNat s, inst, Int.ofNat c, Int.ofNat t⟩
        = "/phylanx/" ++ prim ++ "#" ++ toString s
            ++ (if inst = "" then "" else "#" ++ inst)
            ++ "/" ++ toString c ++ "#" ++ toString t)
    ∧ compose_primitive_name ⟨"add", 3, "", 1, 7⟩ = "/phylanx/add#3/1#7"
    ∧ compose_primitive_name ⟨"access-argument", 0, "x", 2, 0⟩
        = "/phylanx/access-argument#0#x/2#0" := by
  refine ⟨?_, by decide, by decide⟩
  intro prim inst s c t
  have hrepr : ∀ k : Nat, (toString k).data = Nat.toDigits 10 k := fun _ => rfl
  obtain ⟨prim⟩ := prim
  obtain ⟨inst⟩ := inst
  apply String.ext
  by_cases h : inst = []
  · subst h
    simp [compose_primitive_name, compose_chars, render_number, name_root, hrepr,
      String.toList]
  · have h2 : (String.mk inst = "") = False := by
      simp only [eq_iff_iff, iff_false]
      intro e
      exact h (congrArg String.data e)
    simp [compose_primitive_name, compose_chars, render_number, name_root, hrepr,
      String.toList, h, h2]

end phylanx.execution_tree.compiler

/-! ## Properties of the distributed matrix -/

namespace phylanx.util

/-! ### Maps -/

theorem map_find_append_some {K V : Type} [DecidableEq K] (m l : List (K × V)) (k : K) (v : V)
    (h : map_find m k = some v) : map_find (m ++ l) k = some v := by
  induction m with
  | nil => simp [map_find] at h
  | cons e t ih =>
    obtain ⟨k', v'⟩ := e
    by_cases hk : k' = k
    · simp only [List.cons_append, map_find, hk, if_true] at h ⊢
      exact h
    · simp only [List.cons_append, map_find, hk, if_false] at h ⊢
      exact ih h

theorem map_find_append_none {K V : Type} [DecidableEq K] (m l : List (K × V)) (k : K)
    (h : map_find m k = none) : map_find (m ++ l) k = map_find l k := by
  induction m with
  | nil => rfl
  | cons e t ih =>
    obtain ⟨k', v'⟩ := e
    by_cases hk : k' = k
    · simp [map_find, hk] at h
    · simp only [List.cons_append, map_find, hk, if_false] at h ⊢
      exact ih h

theorem map_find_singleton {K V : Type} [DecidableEq K] (k : K) (v : V) :
    map_find [(k, v)] k = some v := by
  simp [map_find]

theorem map_erase_append_none {K V : Type} [DecidableEq K] (m : List (K × V)) (k : K) (v : V)
    (h : map_find m k = none) : map_erase (m ++ [(k, v)]) k = m := by
  induction m with
  | nil => simp [map_erase]
  | cons e t ih =>
    obtain ⟨k', v'⟩ := e
    by_cases hk : k' = k
    · simp [map_find, hk] at h
    · simp only [List.cons_append, map_find, hk, if_false, map_erase] at h ⊢
      exact congrArg (fun l => (k', v') :: l) (ih h)

theorem map_find_mem {K V : Type} [DecidableEq K] (m : List (K × V)) (k : K) (v : V)
    (h : map_find m k = some v) : (k, v) ∈ m := by
  induction m with
  | nil => simp [map_find] at h
  | cons e t ih =>
    obtain ⟨k', v'⟩ := e
    by_cases hk : k' = k
    · simp only [map_find, hk, if_true, Option.some.injEq] at h
      subst hk; subst h
      exact List.mem_cons_self _ _
    · simp only [map_find, hk, if_false] at h
      exact List.mem_cons_of_mem _ (ih h)

theorem le_foldr_max (l : List Nat) (x : Nat) (h : x ∈ l) : x ≤ l.foldr max 0 := by
  induction l with
  | nil => simp at h
  | cons a t ih =>
    rw [List.mem_cons] at h
    simp only [List.foldr]
    rcases h with h | h
    · subst h; exact le_max_left _ _
    · exact le_trans (ih h) (le_max_right _ _)

/-- The id that `local_new` hands out addresses no component yet. -/
theorem fresh_id_unused {T : Type} (rt : runtime T) :
    map_find rt.components (fresh_id rt) = none := by
  cases hf : map_find rt.components (fresh_id rt) with
  | none => rfl
  | some p =>
    have hm := map_find_mem _ _ _ hf
    have hx : fresh_id rt ∈ rt.components.map Prod.fst ++ rt.symbols.map Prod.snd := by
      apply List.mem_append_left
      exact List.mem_map.mpr ⟨(fresh_id rt, p), hm, rfl⟩
    have := le_foldr_max _ _ hx
    unfold fresh_id at this
    omega

/-- The id that `local_new` hands out is bound to no name yet. -/
theorem fresh_id_unbound {T : Type} (rt : runtime T) (key : String × Nat) :
    map_find rt.symbols key ≠ some (fresh_id rt) := by
  intro hf
  have hm := map_find_mem _ _ _ hf
  have hx : fresh_id rt ∈ rt.components.map Prod.fst ++ rt.symbols.map Prod.snd := by
    apply List.mem_append_right
    exact List.mem_map.mpr ⟨(key, fresh_id rt), hm, rfl⟩
  have := le_foldr_max _ _ hx
  unfold fresh_id at this
  omega

theorem fresh_id_valid {T : Type} (rt : runtime T) : fresh_id rt ≠ invalid_id := by
  exact Nat.succ_ne_zero _

/-! ### Construction -/

/-- C3, as amended: with `num_sites_` and `this_site_` the values the
members are initialised to (the argument, or the number of localities and
the locality id of the runtime when the argument is `std::size_t(-1)`): when
`this_site_ >= num_sites_` both constructors throw `no_success` with the
runtime exactly as it was (no component created, no name bound) and with
`part_ids_` empty and `ptr_` null; when `this_site_ < num_sites_` neither
constructor throws.  When neither argument is `std::size_t(-1)` the members
are the arguments themselves. -/
theorem construct_site_check {T : Type} (rt : runtime T) (basename : String)
    (data : CustomMatrix T) (num_sites this_site : Nat) (tb : Option Nat) :
    ((distributed_matrix.init rt basename num_sites this_site tb).this_site_
        ≥ (distributed_matrix.init rt basename num_sites this_site tb).num_sites_ →
      distributed_matrix.construct rt basename data num_sites this_site tb
          = (.threw ⟨.no_success, "distributed_matrix::distributed_matrix",
              "attempting to construct invalid part of the distributed object"⟩,
            distributed_matrix.init rt basename num_sites this_site tb, rt)
        ∧ distributed_matrix.construct_move rt basename data num_sites this_site tb
          = (.threw ⟨.no_success, "distributed_matrix::distributed_matrix",
              "attempting to construct invalid part of the distributed object"⟩,
            distributed_matrix.init rt basename num_sites this_site tb, rt)
        ∧ (distributed_matrix.init rt basename num_sites this_site tb).part_ids_ = []
        ∧ (distributed_matrix.init rt basename num_sites this_site tb).ptr_ = none)
    ∧ ((distributed_matrix.init rt basename num_sites this_site tb).this_site_
        < (distributed_matrix.init rt basename num_sites this_site tb).num_sites_ →
      (distributed_matrix.construct rt basename data num_sites this_site tb).1 = .returned ()
        ∧ (distributed_matrix.construct_move rt basename data num_sites this_site tb).1
            = .returned ())
    ∧ (num_sites ≠ npos → this_site ≠ npos →
      (distributed_matrix.init rt basename num_sites this_site tb).num_sites_ = num_sites
        ∧ (distributed_matrix.init rt basename num_sites this_site tb).this_site_ = this_site) := by
  refine ⟨?_, ?_, ?_⟩
  · intro h
    refine ⟨?_, ?_, rfl, rfl⟩
    · unfold distributed_matrix.construct
      simp only [h, if_true]
    · unfold distributed_matrix.construct_move
      simp only [h, if_true]
  · intro h
    have h' : ¬ ((distributed_matrix.init rt basename num_sites this_site tb).this_site_
        ≥ (distributed_matrix.init rt basename num_sites this_site tb).num_sites_) := by omega
    constructor
    · unfold distributed_matrix.construct
      simp only [h', if_false]
    · unfold distributed_matrix.construct_move
      simp only [h', if_false]
  · intro h1 h2
    simp [distributed_matrix.init, h1, h2]

/-- C3 at `this_site = 5`, `num_sites = 3`: both constructors throw and the
runtime is untouched. -/
theorem construct_site_check_witness :
    distributed_matrix.construct rt_empty "m" d44 3 5 none
        = (.threw ⟨.no_success, "distributed_matrix::distributed_matrix",
            "attempting to construct invalid part of the distributed object"⟩,
          distributed_matrix.init rt_empty "m" 3 5 none, rt_empty)
      ∧ distributed_matrix.construct_move rt_empty "m" d44 3 5 none
        = (.threw ⟨.no_success, "distributed_matrix::distributed_matrix",
            "attempting to construct invalid part of the distributed object"⟩,
          distributed_matrix.init rt_empty "m" 3 5 none, rt_empty)
      ∧ (distributed_matrix.init rt_empty "m" 3 5 none).part_ids_ = []
      ∧ (distributed_matrix.init rt_empty "m" 3 5 none).ptr_ = none :=
  (construct_site_check rt_empty "m" d44 3 5 none).1 (by decide)

/-- C3 as stated fails at the argument `this_site = std::size_t(-1)`: it is
not below `num_sites = 3`, yet on locality `0` the constructor takes the
locality id for the site, returns normally, creates a partition and binds
its name.  Likewise `this_site = 5` is below `num_sites = std::size_t(-1)`,
yet with three localities the site check fails. -/
theorem construct_site_check_counterexample :
    (npos ≥ 3
      ∧ (distributed_matrix.construct rt_empty "m" d44 3 npos none).1 = .returned ()
      ∧ (distributed_matrix.construct rt_empty "m" d44 3 npos none).2.2.symbols
          = [(("dist_matrix_m", 0), 1)]
      ∧ (distributed_matrix.construct rt_empty "m" d44 3 npos none).2.1.part_ids_ = [(0, 1)])
    ∧ (5 < npos
      ∧ (distributed_matrix.construct rt_empty "m" d44 npos 5 none).1
          = .threw ⟨.no_success, "distributed_matrix::distributed_matrix",
              "attempting to construct invalid part of the distributed object"⟩) := by
  decide

theorem construct_move_eq {T : Type} (rt : runtime T) (basename : String)
    (data : CustomMatrix T) (num_sites this_site : Nat) (tb : Option Nat) :
    distributed_matrix.construct_move rt basename data num_sites this_site tb
      = distributed_matrix.construct rt basename data num_sites this_site tb := rfl

/-- What a constructor that passes the site check leaves behind, the name
being unbound beforehand. -/
theorem construct_fresh {T : Type} (rt : runtime T) (basename : String)
    (data : CustomMatrix T) (num_sites this_site : Nat) (tb : Option Nat)
    (hcheck : (distributed_matrix.init rt basename num_sites this_site tb).this_site_
      < (distributed_matrix.init rt basename num_sites this_site tb).num_sites_)
    (hfresh : map_find rt.symbols (name_from_basename ("dist_matrix_" ++ basename)
      (distributed_matrix.init rt basename num_sites this_site tb).this_site_) = none) :
    distributed_matrix.construct rt basename data num_sites this_site tb
      = (.returned (),
          { distributed_matrix.init rt basename num_sites this_site tb with
            part_ids_ := [((distributed_matrix.init rt basename num_sites this_site tb).this_site_,
              fresh_id rt)]
            ptr_ := some (fresh_id rt) },
          { rt with
            components := rt.components ++ [(fresh_id rt, ⟨data⟩)]
            symbols := rt.symbols ++ [(name_from_basename ("dist_matrix_" ++ basename)
              (distributed_matrix.init rt basename num_sites this_site tb).this_site_,
              fresh_id rt)] }) := by
  have h' : ¬ ((distributed_matrix.init rt basename num_sites this_site tb).this_site_
      ≥ (distributed_matrix.init rt basename num_sites this_site tb).num_sites_) := by omega
  have hb : (distributed_matrix.init rt basename num_sites this_site tb).basename_
      = "dist_matrix_" ++ basename := rfl
  have hp : (distributed_matrix.init rt basename num_sites this_site tb).part_ids_ = [] := rfl
  have hc : map_find (rt.components ++ [(fresh_id rt, (⟨data⟩ : server.distributed_matrix_part T))])
      (fresh_id rt) = some ⟨data⟩ := by
    rw [map_find_append_none _ _ _ (fresh_id_unused rt)]
    exact map_find_singleton _ _
  unfold distributed_matrix.construct
  simp only [h', if_false]
  simp only [distributed_matrix.create_and_register_server, local_new, register_with_basename,
    hb, hfresh, get_ptr, hc, hp, map_assign]

/-- What a constructor that passes the site check leaves behind when the
name is bound already: the new partition is created and cached, the binding
of the name stays as it was. -/
theorem construct_bound {T : Type} (rt : runtime T) (basename : String)
    (data : CustomMatrix T) (num_sites this_site : Nat) (tb : Option Nat) (other : id_type)
    (hcheck : (distributed_matrix.init rt basename num_sites this_site tb).this_site_
      < (distributed_matrix.init rt basename num_sites this_site tb).num_sites_)
    (hbound : map_find rt.symbols (name_from_basename ("dist_matrix_" ++ basename)
      (distributed_matrix.init rt basename num_sites this_site tb).this_site_) = some other) :
    distributed_matrix.construct rt basename data num_sites this_site tb
      = (.returned (),
          { distributed_matrix.init rt basename num_sites this_site tb with
            part_ids_ := [((distributed_matrix.init rt basename num_sites this_site tb).this_site_,
              fresh_id rt)]
            ptr_ := some (fresh_id rt) },
          { rt with components := rt.components ++ [(fresh_id rt, ⟨data⟩)] }) := by
  have h' : ¬ ((distributed_matrix.init rt basename num_sites this_site tb).this_site_
      ≥ (distributed_matrix.init rt basename num_sites this_site tb).num_sites_) := by omega
  have hb : (distributed_matrix.init rt basename num_sites this_site tb).basename_
      = "dist_matrix_" ++ basename := rfl
  have hp : (distributed_matrix.init rt basename num_sites this_site tb).part_ids_ = [] := rfl
  have hc : map_find (rt.components ++ [(fresh_id rt, (⟨data⟩ : server.distributed_matrix_part T))])
      (fresh_id rt) = some ⟨data⟩ := by
    rw [map_find_append_none _ _ _ (fresh_id_unused rt)]
    exact map_find_singleton _ _
  unfold distributed_matrix.construct
  simp only [h', if_false]
  simp only [distributed_matrix.create_and_register_server, local_new, register_with_basename,
    hb, hbound, get_ptr, hc, hp, map_assign]

theorem init_this_site {T : Type} (rt : runtime T) (basename : String)
    (num_sites this_site : Nat) (tb : Option Nat) (h : this_site ≠ npos) :
    (distributed_matrix.init rt basename num_sites this_site tb).this_site_ = this_site := by
  simp [distributed_matrix.init, h]

/-- C4, as amended: for every base name `b`, data `d` and
`this_site < num_sites` for which the site check passes and whose name
(`"dist_matrix_" + b`, `this_site`) is not bound in the name service yet,
the constructor returns normally; it has created one new component holding
`d`, bound the name to the id of that component, left `part_ids_` with
exactly the entry `this_site -> id`, and set `ptr_` to that component. -/
theorem construct_registers {T : Type} (rt : runtime T) (b : String) (d : CustomMatrix T)
    (num_sites this_site : Nat) (tb : Option Nat)
    (hsite : this_site < num_sites) (h64 : num_sites ≤ npos)
    (hcheck : this_site < (distributed_matrix.init rt b num_sites this_site tb).num_sites_)
    (hfresh : map_find rt.symbols (name_from_basename ("dist_matrix_" ++ b) this_site) = none) :
    (distributed_matrix.construct rt b d num_sites this_site tb).1 = .returned ()
    ∧ map_find rt.components (fresh_id rt) = none
    ∧ (distributed_matrix.construct rt b d num_sites this_site tb).2.2.components
        = rt.components ++ [(fresh_id rt, ⟨d⟩)]
    ∧ map_find (distributed_matrix.construct rt b d num_sites this_site tb).2.2.components
        (fresh_id rt) = some ⟨d⟩
    ∧ (distributed_matrix.construct rt b d num_sites this_site tb).2.2.symbols
        = rt.symbols ++ [(name_from_basename ("dist_matrix_" ++ b) this_site, fresh_id rt)]
    ∧ map_find (distributed_matrix.construct rt b d num_sites this_site tb).2.2.symbols
        (name_from_basename ("dist_matrix_" ++ b) this_site) = some (fresh_id rt)
    ∧ (distributed_matrix.construct rt b d num_sites this_site tb).2.1.part_ids_
        = [(this_site, fresh_id rt)]
    ∧ (distributed_matrix.construct rt b d num_sites this_site tb).2.1.ptr_
        = some (fresh_id rt) := by
  have hne : this_site ≠ npos := by omega
  have hts := init_this_site rt b num_sites this_site tb hne
  have hcheck' : (distributed_matrix.init rt b num_sites this_site tb).this_site_
      < (distributed_matrix.init rt b num_sites this_site tb).num_sites_ := by
    rw [hts]; exact hcheck
  have hfresh' : map_find rt.symbols (name_from_basename ("dist_matrix_" ++ b)
      (distributed_matrix.init rt b num_sites this_site tb).this_site_) = none := by
    rw [hts]; exact hfresh
  rw [construct_fresh rt b d num_sites this_site tb hcheck' hfresh', hts]
  refine ⟨rfl, fresh_id_unused rt, rfl, ?_, rfl, ?_, rfl, rfl⟩
  · show map_find (rt.components ++ [(fresh_id rt, (⟨d⟩ : server.distributed_matrix_part T))])
        (fresh_id rt) = some ⟨d⟩
    rw [map_find_append_none _ _ _ (fresh_id_unused rt)]
    exact map_find_singleton _ _
  · show map_find (rt.symbols ++ [(name_from_basename ("dist_matrix_" ++ b) this_site,
        fresh_id rt)]) (name_from_basename ("dist_matrix_" ++ b) this_site) = some (fresh_id rt)
    rw [map_find_append_none _ _ _ hfresh]
    exact map_find_singleton _ _

/-- C4 for the base name `m` and site `1` of three, nothing being
registered before. -/
theorem construct_registers_witness :
    (distributed_matrix.construct rt_empty "m" d44 3 1 none).1 = .returned ()
    ∧ map_find rt_empty.components (fresh_id rt_empty) = none
    ∧ (distributed_matrix.construct rt_empty "m" d44 3 1 none).2.2.components
        = rt_empty.components ++ [(fresh_id rt_empty, ⟨d44⟩)]
    ∧ map_find (distributed_matrix.construct rt_empty "m" d44 3 1 none).2.2.components
        (fresh_id rt_empty) = some ⟨d44⟩
    ∧ (distributed_matrix.construct rt_empty "m" d44 3 1 none).2.2.symbols
        = rt_empty.symbols ++ [(name_from_basename ("dist_matrix_" ++ "m") 1, fresh_id rt_empty)]
    ∧ map_find (distributed_matrix.construct rt_empty "m" d44 3 1 none).2.2.symbols
        (name_from_basename ("dist_matrix_" ++ "m") 1) = some (fresh_id rt_empty)
    ∧ (distributed_matrix.construct rt_empty "m" d44 3 1 none).2.1.part_ids_
        = [(1, fresh_id rt_empty)]
    ∧ (distributed_matrix.construct rt_empty "m" d44 3 1 none).2.1.ptr_
        = some (fresh_id rt_empty) :=
  construct_registers rt_empty "m" d44 3 1 none (by decide) (by decide) (by decide) (by decide)

/-- C4 as stated fails when the name is bound already: with
(`dist_matrix_m`, `1`) bound to the id `9`, constructing `m` on site `1` of
three returns normally and creates the partition `10`, but the name service
still maps the name to `9`, not to the new partition. -/
theorem construct_registers_counterexample :
    1 < 3
    ∧ (distributed_matrix.construct rt_bound "m" d44 3 1 none).1 = .returned ()
    ∧ (distributed_matrix.construct rt_bound "m" d44 3 1 none).2.1.part_ids_ = [(1, 10)]
    ∧ map_find (distributed_matrix.construct rt_bound "m" d44 3 1 none).2.2.components 10
        = some ⟨d44⟩
    ∧ map_find (distributed_matrix.construct rt_bound "m" d44 3 1 none).2.2.symbols
        (name_from_basename "dist_matrix_m" 1) = some 9
    ∧ map_find (distributed_matrix.construct rt_bound "m" d44 3 1 none).2.2.symbols
        (name_from_basename "dist_matrix_m" 1) ≠ some 10 := by
  decide

/-! ### Fetching -/

theorem size_sub_of_le (a b : Nat) (h : b ≤ a) (ha : a < 2 ^ 64) : size_sub a b = a - b := by
  have h2 : (2 : Nat) ^ 64 = 18446744073709551616 := by norm_num
  unfold size_sub
  rw [h2] at ha ⊢
  omega

/-- `get_part_id` touches nothing of the runtime but the record of queries. -/
theorem get_part_id_frame {T : Type} (self : distributed_matrix) (rt : runtime T) (idx : Nat)
    (racing : List (Nat × id_type)) :
    (self.get_part_id rt idx racing).2.2.components = rt.components
    ∧ (self.get_part_id rt idx racing).2.2.symbols = rt.symbols
    ∧ (self.get_part_id rt idx racing).2.2.memory = rt.memory
    ∧ (self.get_part_id rt idx racing).2.1.transferred_bytes_ = self.transferred_bytes_ := by
  unfold distributed_matrix.get_part_id
  split
  · exact ⟨rfl, rfl, rfl, rfl⟩
  · split
    · exact ⟨rfl, rfl, rfl, rfl⟩
    · split
      · exact ⟨rfl, rfl, rfl, rfl⟩
      · split
        · exact ⟨rfl, rfl, rfl, rfl⟩
        · dsimp only
          split <;> exact ⟨rfl, rfl, rfl, rfl⟩

/-- The future that `fetch` returns is the one of the fetch action on the id
that `get_part_id` returns. -/
theorem fetch_result {T : Type} (tr : element_traits) (self : distributed_matrix)
    (rt : runtime T) (idx : Nat) (racing : List (Nat × id_type)) (id : id_type)
    (hid : (self.get_part_id rt idx racing).1 = .returned id) :
    (self.fetch tr rt idx racing).1 = .returned (async_fetch tr rt id) := by
  have hfr := (get_part_id_frame self rt idx racing).1
  unfold distributed_matrix.fetch
  rcases hg : self.get_part_id rt idx racing with ⟨c, self1, rt1⟩
  rw [hg] at hid hfr
  simp only at hid hfr
  subst hid
  have ha : async_fetch tr rt1 id = async_fetch tr rt id := by
    unfold async_fetch; rw [hfr]
  cases htb : self1.transferred_bytes_ <;> simp [htb, ha]

/-- The future that the sub-range `fetch` returns is the one of the
`fetch_part` action on the id that `get_part_id` returns. -/
theorem fetch_range_result {T : Type} (tr : element_traits) (self : distributed_matrix)
    (rt : runtime T) (idx : Nat) (racing : List (Nat × id_type)) (id : id_type)
    (r0 c0 r1 c1 : Nat)
    (hid : (self.get_part_id rt idx racing).1 = .returned id) :
    (self.fetch_range tr rt idx r0 c0 r1 c1 racing).1
      = .returned (async_fetch_part tr rt id r0 c0 r1 c1) := by
  have hfr := (get_part_id_frame self rt idx racing).1
  unfold distributed_matrix.fetch_range
  rcases hg : self.get_part_id rt idx racing with ⟨c, self1, rt1⟩
  rw [hg] at hid hfr
  simp only at hid hfr
  subst hid
  have ha : async_fetch_part tr rt1 id r0 c0 r1 c1 = async_fetch_part tr rt id r0 c0 r1 c1 := by
    unfold async_fetch_part; rw [hfr]
  cases htb : self1.transferred_bytes_ <;> simp [htb, ha]

/-- The rows and elements of a block cut out of a well formed matrix. -/
theorem submatrix_block {T : Type} (a : CustomMatrix T) (hwf : a.wf) (row column m n : Nat)
    (hr : row + m ≤ a.m_) (hc : column + n ≤ a.n_) :
    ∃ s, submatrix a row column m n = .ok s ∧ s.m_ = m ∧ s.n_ = n
      ∧ s.v_.length = m ∧ (∀ x ∈ s.v_, x.length = n)
      ∧ ∀ i j, i < m → j < n →
          (s.elem i j).isSome ∧ s.elem i j = a.elem (row + i) (column + j) := by
  obtain ⟨hlen, hrows, _, _⟩ := hwf
  have hcond : ¬ (row + m > a.m_ ∨ column + n > a.n_) := by omega
  refine ⟨_, by unfold submatrix; rw [if_neg hcond], rfl, rfl, ?_, ?_, ?_⟩
  · simp only [List.length_map, List.length_take, List.length_drop]
    omega
  · intro x hx
    rw [List.mem_map] at hx
    obtain ⟨y, hy, rfl⟩ := hx
    have hy' : y ∈ a.v_ := List.mem_of_mem_drop (List.mem_of_mem_take hy)
    have := hrows y hy'
    simp only [List.length_take, List.length_drop]
    omega
  · intro i j hi hj
    have hi' : row + i < a.v_.length := by omega
    have hrow : a.v_[row + i]? = some (a.v_[row + i]) := List.getElem?_eq_getElem hi'
    have hlr : (a.v_[row + i]).length = a.n_ := hrows _ (List.getElem_mem _)
    have hj' : column + j < (a.v_[row + i]).length := by omega
    have hcol : (a.v_[row + i])[column + j]? = some ((a.v_[row + i])[column + j]) :=
      List.getElem?_eq_getElem hj'
    simp only [CustomMatrix.elem, List.getElem?_map, List.getElem?_take_of_lt hi,
      List.getElem?_drop, hrow, Option.map_some', Option.some_bind,
      List.getElem?_take_of_lt hj, hcol]
    exact ⟨rfl, trivial⟩

/-- C5: for a part resolved for `idx` whose data has `R` rows and `C`
columns, and `row_lo <= row_hi <= R`, `col_lo <= col_hi <= C`: `fetch_part`
returns a matrix of `row_hi - row_lo` rows and `col_hi - col_lo` columns,
the sub-range `fetch` returns a future holding that matrix, and its element
`(i, j)` is element `(row_lo + i, col_lo + j)` of the matrix that the whole
`fetch` returns. -/
theorem fetch_range_is_slice {T : Type} (tr : element_traits) (self : distributed_matrix)
    (rt : runtime T) (idx : Nat) (racing : List (Nat × id_type)) (id : id_type)
    (part : server.distributed_matrix_part T) (row_lo col_lo row_hi col_hi : Nat)
    (hid : (self.get_part_id rt idx racing).1 = .returned id)
    (hpart : map_find rt.components id = some part)
    (hwf : part.data_.wf)
    (hr1 : row_lo ≤ row_hi) (hr2 : row_hi ≤ part.data_.m_)
    (hc1 : col_lo ≤ col_hi) (hc2 : col_hi ≤ part.data_.n_) :
    ∃ r, part.fetch_part tr row_lo col_lo row_hi col_hi = .ok r
      ∧ (self.fetch_range tr rt idx row_lo col_lo row_hi col_hi racing).1
          = .returned (.ready r)
      ∧ (self.fetch tr rt idx racing).1 = .returned (.ready (part.fetch tr))
      ∧ r.rows = row_hi - row_lo ∧ r.columns = col_hi - col_lo
      ∧ r.v_.length = row_hi - row_lo ∧ (∀ x ∈ r.v_, x.length = col_hi - col_lo)
      ∧ ∀ i j, i < row_hi - row_lo → j < col_hi - col_lo →
          (r.elem i j).isSome
            ∧ r.elem i j = (part.fetch tr).elem (row_lo + i) (col_lo + j) := by
  have hm : part.data_.m_ < 2 ^ 64 := hwf.2.2.1
  have hn : part.data_.n_ < 2 ^ 64 := hwf.2.2.2
  have hsr : size_sub row_hi row_lo = row_hi - row_lo :=
    size_sub_of_le _ _ hr1 (lt_of_le_of_lt hr2 hm)
  have hsc : size_sub col_hi col_lo = col_hi - col_lo :=
    size_sub_of_le _ _ hc1 (lt_of_le_of_lt hc2 hn)
  obtain ⟨s, hs, hsm, hsn, hlen, hrows, helem⟩ :=
    submatrix_block part.data_ hwf row_lo col_lo (row_hi - row_lo) (col_hi - col_lo)
      (by omega) (by omega)
  have hfp : part.fetch_part tr row_lo col_lo row_hi col_hi
      = .ok (DynamicMatrix.create tr s.m_ s.n_ s.v_) := by
    unfold server.distributed_matrix_part.fetch_part
    rw [hsr, hsc, hs]
  refine ⟨DynamicMatrix.create tr s.m_ s.n_ s.v_, hfp, ?_, ?_, hsm, hsn, hlen, hrows, ?_⟩
  · rw [fetch_range_result tr self rt idx racing id _ _ _ _ hid]
    unfold async_fetch_part
    rw [hpart]
    simp only [hfp]
  · rw [fetch_result tr self rt idx racing id hid]
    unfold async_fetch
    rw [hpart]
  · intro i j hi hj
    exact helem i j hi hj

/-- C5 for `fetch(1, 1, 0, 3, 2)` on the four by four partition of site `1`:
the result is the two by two block of rows `1..2` and columns `0..1`. -/
theorem fetch_range_is_slice_witness :
    (∃ r, (⟨d44⟩ : server.distributed_matrix_part Nat).fetch_part tr_simd4 1 0 3 2 = .ok r
      ∧ (dm_m1.fetch_range tr_simd4 rt_m1 1 1 0 3 2 []).1 = .returned (.ready r)
      ∧ (dm_m1.fetch tr_simd4 rt_m1 1 []).1
          = .returned (.ready ((⟨d44⟩ : server.distributed_matrix_part Nat).fetch tr_simd4))
      ∧ r.rows = 3 - 1 ∧ r.columns = 2 - 0
      ∧ r.v_.length = 3 - 1 ∧ (∀ x ∈ r.v_, x.length = 2 - 0)
      ∧ ∀ i j, i < 3 - 1 → j < 2 - 0 →
          (r.elem i j).isSome
            ∧ r.elem i j
              = ((⟨d44⟩ : server.distributed_matrix_part Nat).fetch tr_simd4).elem (1 + i) (0 + j))
    ∧ (dm_m1.fetch_range tr_simd4 rt_m1 1 1 0 3 2 []).1
        = .returned (.ready ⟨2, 2, 4, 8, [[10, 11], [20, 21]]⟩) :=
  ⟨fetch_range_is_slice tr_simd4 dm_m1 rt_m1 1 [] 1 ⟨d44⟩ 1 0 3 2 (by decide) (by decide)
      (by unfold CustomMatrix.wf; decide) (by decide) (by decide) (by decide) (by decide),
    by decide⟩

/-! ### Byte accounting -/

theorem map_find_assign_self {K V : Type} [DecidableEq K] (m : List (K × V)) (k : K) (v : V) :
    map_find (map_assign m k v) k = some v := by
  induction m with
  | nil => simp [map_assign, map_find]
  | cons e t ih =>
    obtain ⟨k', v'⟩ := e
    by_cases hk : k' = k
    · simp [map_assign, map_find, hk]
    · simp [map_assign, map_find, hk, ih]

theorem nextMultiple_ge (value factor : Nat) : value ≤ nextMultiple value factor := by
  unfold nextMultiple
  split <;> omega

theorem wrap_int64_of_range (x : Int) (h1 : -2 ^ 63 ≤ x) (h2 : x < 2 ^ 63) :
    wrap_int64 x = x := by
  unfold wrap_int64
  have e1 : (2 : Int) ^ 63 = 9223372036854775808 := by norm_num
  have e2 : (2 : Int) ^ 64 = 18446744073709551616 := by norm_num
  rw [e1] at h1 h2 ⊢
  rw [e2]
  omega

/-- The completion handler reads and writes nothing but the memory. -/
theorem on_completed_memory {T : Type} (tr : element_traits) (rt rt1 : runtime T)
    (counter : Nat) (f : future (DynamicMatrix T)) (h : rt1.memory = rt.memory) :
    (distributed_matrix.on_completed tr rt1 counter f).memory
      = (distributed_matrix.on_completed tr rt counter f).memory := by
  cases f with
  | ready r => simp only [distributed_matrix.on_completed, h]
  | exceptional e => simpa only [distributed_matrix.on_completed] using h

/-- Without overflow of the counter the handler adds `capacity * sizeof(T)`. -/
theorem on_completed_exact {T : Type} (tr : element_traits) (rt : runtime T) (counter : Nat)
    (r : DynamicMatrix T) (old : Int) (hold : map_find rt.memory counter = some old)
    (h1 : -2 ^ 63 ≤ old) (h2 : old + ((r.capacity * tr.sizeof_T : Nat) : Int) < 2 ^ 63) :
    map_find (distributed_matrix.on_completed tr rt counter (.ready r)).memory counter
      = some (old + ((r.capacity * tr.sizeof_T : Nat) : Int)) := by
  simp only [distributed_matrix.on_completed, hold, Option.getD_some]
  rw [map_find_assign_self]
  generalize r.capacity * tr.sizeof_T = b at h2 ⊢
  have e1 : (2 : Int) ^ 63 = 9223372036854775808 := by norm_num
  have e3 : (2 : Nat) ^ 64 = 18446744073709551616 := by norm_num
  have hb : b % 2 ^ 64 = b := by
    apply Nat.mod_eq_of_lt
    rw [e3]
    rw [e1] at h1 h2
    omega
  rw [hb]
  simp only [Int.ofNat_eq_coe]
  rw [e1] at h1
  rw [wrap_int64_of_range _ (by rw [e1]; omega) h2]

/-- The handlers of any number of completed fetches of `k` allocated elements
each add up. -/
theorem on_completed_fold {T : Type} (tr : element_traits) (counter k : Nat)
    (fs : List (future (DynamicMatrix T))) :
    ∀ (rt : runtime T) (old : Int),
      (∀ f ∈ fs, ∃ r, f = .ready r ∧ r.capacity = k) →
      map_find rt.memory counter = some old → -2 ^ 63 ≤ old →
      old + ((fs.length * (k * tr.sizeof_T) : Nat) : Int) < 2 ^ 63 →
      map_find (fs.foldl (fun w f => distributed_matrix.on_completed tr w counter f) rt).memory
        counter = some (old + ((fs.length * (k * tr.sizeof_T) : Nat) : Int)) := by
  induction fs with
  | nil => intro rt old _ hold _ _; simpa using hold
  | cons f t ih =>
    intro rt old hall hold h1 h2
    obtain ⟨r, rfl, hk⟩ := hall f (List.mem_cons_self _ _)
    have hlen : (f_len : Nat) → f_len = t.length →
        ((t.length + 1) * (k * tr.sizeof_T) : Nat) = k * tr.sizeof_T + f_len * (k * tr.sizeof_T) := by
      intro f_len e; subst e; ring
    have hsum := hlen t.length rfl
    simp only [List.length_cons] at h2 ⊢
    rw [hsum] at h2 ⊢
    push_cast at h2 ⊢
    have hstep := on_completed_exact tr rt counter r old hold h1
      (by rw [hk]; push_cast; have := Int.ofNat_nonneg (t.length * (k * tr.sizeof_T))
          have h3 : (0 : Int) ≤ (t.length : Int) * ((k : Int) * (tr.sizeof_T : Int)) := by positivity
          linarith)
    rw [hk] at hstep
    simp only [List.foldl_cons]
    have := ih (distributed_matrix.on_completed tr rt counter (.ready r))
      (old + ((k * tr.sizeof_T : Nat) : Int))
      (fun f hf => hall f (List.mem_cons_of_mem _ hf)) hstep
      (by have := Int.ofNat_nonneg (k * tr.sizeof_T); linarith)
      (by push_cast; linarith)
    rw [this]
    push_cast
    congr 1
    ring

theorem create_capacity {T : Type} (tr : element_traits) (m n : Nat) (v : List (List T)) :
    (DynamicMatrix.create tr m n v).capacity
        = (DynamicMatrix.create tr m n v).rows * addPadding tr (DynamicMatrix.create tr m n v).columns
      ∧ (DynamicMatrix.create tr m n v).rows * (DynamicMatrix.create tr m n v).columns
        ≤ (DynamicMatrix.create tr m n v).capacity :=
  ⟨rfl, Nat.mul_le_mul_left _ (nextMultiple_ge _ _)⟩

theorem async_fetch_capacity {T : Type} (tr : element_traits) (rt : runtime T) (id : id_type)
    (r : DynamicMatrix T) (h : async_fetch tr rt id = .ready r) :
    r.capacity = r.rows * addPadding tr r.columns ∧ r.rows * r.columns ≤ r.capacity := by
  unfold async_fetch at h
  split at h
  · injection h with h
    subst h
    exact create_capacity tr _ _ _
  · exact absurd h (by simp)

theorem async_fetch_part_capacity {T : Type} (tr : element_traits) (rt : runtime T)
    (id : id_type) (r0 c0 r1 c1 : Nat) (r : DynamicMatrix T)
    (h : async_fetch_part tr rt id r0 c0 r1 c1 = .ready r) :
    r.capacity = r.rows * addPadding tr r.columns ∧ r.rows * r.columns ≤ r.capacity := by
  unfold async_fetch_part at h
  split at h
  · rename_i part _
    unfold server.distributed_matrix_part.fetch_part at h
    split at h
    · rename_i hs
      split at hs
      · exact absurd hs (by simp)
      · injection hs with hs
        subst hs
        injection h with h
        subst h
        exact create_capacity tr _ _ _
    · exact absurd h (by simp)
  · exact absurd h (by simp)

/-- The whole `fetch`: what it returns and what it leaves in memory, in terms
of the id from `get_part_id`. -/
theorem fetch_cases {T : Type} (tr : element_traits) (self : distributed_matrix)
    (rt : runtime T) (idx : Nat) (racing : List (Nat × id_type))
    (f : future (DynamicMatrix T))
    (h : (self.fetch tr rt idx racing).1 = .returned f) :
    (∃ id, (self.get_part_id rt idx racing).1 = .returned id ∧ f = async_fetch tr rt id)
    ∧ (∀ counter, self.transferred_bytes_ = some counter →
        (self.fetch tr rt idx racing).2.2.memory
          = (distributed_matrix.on_completed tr rt counter f).memory)
    ∧ (self.transferred_bytes_ = none → (self.fetch tr rt idx racing).2.2.memory = rt.memory) := by
  obtain ⟨hc, _, hm, htb⟩ := get_part_id_frame self rt idx racing
  unfold distributed_matrix.fetch at h ⊢
  rcases hg : self.get_part_id rt idx racing with ⟨c, self1, rt1⟩
  rw [hg] at h hc hm htb
  simp only at hc hm htb
  cases c with
  | threw e => simp at h
  | suspended => simp at h
  | returned id =>
    have ha : async_fetch tr rt1 id = async_fetch tr rt id := by
      unfold async_fetch; rw [hc]
    cases hx : self1.transferred_bytes_ with
    | none =>
      simp only [hx] at h ⊢
      injection h with h
      refine ⟨⟨id, rfl, by rw [← h, ha]⟩, ?_, fun _ => hm⟩
      intro counter hcn
      rw [← htb, hx] at hcn
      exact absurd hcn (by simp)
    | some counter =>
      simp only [hx] at h ⊢
      injection h with h
      refine ⟨⟨id, rfl, by rw [← h, ha]⟩, ?_, ?_⟩
      · intro counter2 hcn
        rw [← htb, hx] at hcn
        injection hcn with hcn
        subst hcn
        rw [← h]
        exact on_completed_memory tr rt rt1 counter _ hm
      · intro hn
        rw [← htb, hx] at hn
        exact absurd hn (by simp)

/-- The sub-range `fetch`: what it returns and what it leaves in memory, in
terms of the id from `get_part_id`. -/
theorem fetch_range_cases {T : Type} (tr : element_traits) (self : distributed_matrix)
    (rt : runtime T) (idx : Nat) (racing : List (Nat × id_type)) (r0 c0 r1 c1 : Nat)
    (f : future (DynamicMatrix T))
    (h : (self.fetch_range tr rt idx r0 c0 r1 c1 racing).1 = .returned f) :
    (∃ id, (self.get_part_id rt idx racing).1 = .returned id
        ∧ f = async_fetch_part tr rt id r0 c0 r1 c1)
    ∧ (∀ counter, self.transferred_bytes_ = some counter →
        (self.fetch_range tr rt idx r0 c0 r1 c1 racing).2.2.memory
          = (distributed_matrix.on_completed tr rt counter f).memory)
    ∧ (self.transferred_bytes_ = none →
        (self.fetch_range tr rt idx r0 c0 r1 c1 racing).2.2.memory = rt.memory) := by
  obtain ⟨hc, _, hm, htb⟩ := get_part_id_frame self rt idx racing
  unfold distributed_matrix.fetch_range at h ⊢
  rcases hg : self.get_part_id rt idx racing with ⟨c, self1, rt1⟩
  rw [hg] at h hc hm htb
  simp only at hc hm htb
  cases c with
  | threw e => simp at h
  | suspended => simp at h
  | returned id =>
    have ha : async_fetch_part tr rt1 id r0 c0 r1 c1 = async_fetch_part tr rt id r0 c0 r1 c1 := by
      unfold async_fetch_part; rw [hc]
    cases hx : self1.transferred_bytes_ with
    | none =>
      simp only [hx] at h ⊢
      injection h with h
      refine ⟨⟨id, rfl, by rw [← h, ha]⟩, ?_, fun _ => hm⟩
      intro counter hcn
      rw [← htb, hx] at hcn
      exact absurd hcn (by simp)
    | some counter =>
      simp only [hx] at h ⊢
      injection h with h
      refine ⟨⟨id, rfl, by rw [← h, ha]⟩, ?_, ?_⟩
      · intro counter2 hcn
        rw [← htb, hx] at hcn
        injection hcn with hcn
        subst hcn
        rw [← h]
        exact on_completed_memory tr rt rt1 counter _ hm
      · intro hn
        rw [← htb, hx] at hn
        exact absurd hn (by simp)

/-- C6, as amended: when a byte counter is supplied, each completed `fetch`
(whole or sub-range) runs the completion handler on the returned future,
which for a future holding a matrix `r` stores
`counter + r.capacity() * sizeof(T)` (in `std::int64_t` arithmetic, exactly
that sum when it does not overflow) and for a failed future changes
nothing.  The capacity of a returned matrix is `rows` times the padded row
length, at least `rows * columns`.  `N` handlers for matrices of capacity
`k` add `N * k * sizeof(T)`.  Without a counter the memory is left as it
was. -/
theorem fetch_byte_accounting {T : Type} (tr : element_traits) (self : distributed_matrix)
    (rt : runtime T) (idx : Nat) (racing : List (Nat × id_type)) (r0 c0 r1 c1 : Nat) :
    (∀ counter f, self.transferred_bytes_ = some counter →
        ((self.fetch tr rt idx racing).1 = .returned f →
          (self.fetch tr rt idx racing).2.2.memory
            = (distributed_matrix.on_completed tr rt counter f).memory)
        ∧ ((self.fetch_range tr rt idx r0 c0 r1 c1 racing).1 = .returned f →
          (self.fetch_range tr rt idx r0 c0 r1 c1 racing).2.2.memory
            = (distributed_matrix.on_completed tr rt counter f).memory))
    ∧ (∀ counter r,
        map_find (distributed_matrix.on_completed tr rt counter (.ready r)).memory counter
          = some (wrap_int64 ((map_find rt.memory counter).getD 0
              + ((r.capacity * tr.sizeof_T % 2 ^ 64 : Nat) : Int))))
    ∧ (∀ counter r old, map_find rt.memory counter = some old → -2 ^ 63 ≤ old →
        old + ((r.capacity * tr.sizeof_T : Nat) : Int) < 2 ^ 63 →
        map_find (distributed_matrix.on_completed tr rt counter (.ready r)).memory counter
          = some (old + ((r.capacity * tr.sizeof_T : Nat) : Int)))
    ∧ (∀ counter e, distributed_matrix.on_completed tr rt counter (.exceptional e) = rt)
    ∧ (∀ r, (self.fetch tr rt idx racing).1 = .returned (.ready r)
          ∨ (self.fetch_range tr rt idx r0 c0 r1 c1 racing).1 = .returned (.ready r) →
        r.capacity = r.rows * addPadding tr r.columns ∧ r.rows * r.columns ≤ r.capacity)
    ∧ (∀ counter k (fs : List (future (DynamicMatrix T))) old,
        (∀ f ∈ fs, ∃ r, f = .ready r ∧ r.capacity = k) →
        map_find rt.memory counter = some old → -2 ^ 63 ≤ old →
        old + ((fs.length * (k * tr.sizeof_T) : Nat) : Int) < 2 ^ 63 →
        map_find (fs.foldl (fun w f => distributed_matrix.on_completed tr w counter f) rt).memory
          counter = some (old + ((fs.length * (k * tr.sizeof_T) : Nat) : Int)))
    ∧ (self.transferred_bytes_ = none →
        (∀ f, (self.fetch tr rt idx racing).1 = .returned f →
          (self.fetch tr rt idx racing).2.2.memory = rt.memory)
        ∧ (∀ f, (self.fetch_range tr rt idx r0 c0 r1 c1 racing).1 = .returned f →
          (self.fetch_range tr rt idx r0 c0 r1 c1 racing).2.2.memory = rt.memory)) := by
  refine ⟨?_, ?_, ?_, ?_, ?_, ?_, ?_⟩
  · intro counter f htb
    exact ⟨fun h => (fetch_cases tr self rt idx racing f h).2.1 counter htb,
      fun h => (fetch_range_cases tr self rt idx racing r0 c0 r1 c1 f h).2.1 counter htb⟩
  · intro counter r
    simp only [distributed_matrix.on_completed]
    rw [map_find_assign_self]
    rfl
  · intro counter r old hold h1 h2
    exact on_completed_exact tr rt counter r old hold h1 h2
  · intro counter e
    rfl
  · intro r h
    rcases h with h | h
    · obtain ⟨⟨id, _, hf⟩, _, _⟩ := fetch_cases tr self rt idx racing _ h
      exact async_fetch_capacity tr rt id r hf.symm
    · obtain ⟨⟨id, _, hf⟩, _, _⟩ := fetch_range_cases tr self rt idx racing r0 c0 r1 c1 _ h
      exact async_fetch_part_capacity tr rt id r0 c0 r1 c1 r hf.symm
  · intro counter k fs old hall hold h1 h2
    exact on_completed_fold tr counter k fs rt old hall hold h1 h2
  · intro htb
    exact ⟨fun f h => (fetch_cases tr self rt idx racing f h).2.2 htb,
      fun f h => (fetch_range_cases tr self rt idx racing r0 c0 r1 c1 f h).2.2 htb⟩

/-- C6 for the matrix `v`, one row of three elements padded to four: the
handler of a completed whole `fetch` stores `0 + 4 * 8`. -/
theorem fetch_byte_accounting_witness :
    map_find (distributed_matrix.on_completed tr_simd4 rt_v1 100
        (.ready ⟨1, 3, 4, 4, [[7, 8, 9]]⟩)).memory 100
      = some (0 + (((⟨1, 3, 4, 4, [[7, 8, 9]]⟩ : DynamicMatrix Nat).capacity
          * tr_simd4.sizeof_T : Nat) : Int)) :=
  (fetch_byte_accounting tr_simd4 dm_v1 rt_v1 1 [] 0 0 0 0).2.2.1 100
    ⟨1, 3, 4, 4, [[7, 8, 9]]⟩ 0 (by decide) (by decide) (by decide)

/-- C6 as stated fails where rows are padded: with elements of eight bytes,
four to a SIMD register, the whole `fetch` of a partition of one row and
three columns returns a matrix of one row and three columns and adds
`4 * 8 = 32` to the counter, not `1 * 3 * 8 = 24`. -/
theorem fetch_byte_accounting_counterexample :
    (dm_v1.fetch tr_simd4 rt_v1 1 []).1
        = .returned (.ready ⟨1, 3, 4, 4, [[7, 8, 9]]⟩)
    ∧ map_find rt_v1.memory 100 = some 0
    ∧ map_find (dm_v1.fetch tr_simd4 rt_v1 1 []).2.2.memory 100 = some 32
    ∧ (0 : Int) + ((1 * 3 * tr_simd4.sizeof_T : Nat) : Int) = 24 := by
  decide

/-! ### Fetching the local part -/

/-- The completion handler leaves components, names and queries alone. -/
theorem on_completed_frame {T : Type} (tr : element_traits) (rt : runtime T) (counter : Nat)
    (f : future (DynamicMatrix T)) :
    (distributed_matrix.on_completed tr rt counter f).components = rt.components
    ∧ (distributed_matrix.on_completed tr rt counter f).symbols = rt.symbols
    ∧ (distributed_matrix.on_completed tr rt counter f).queries = rt.queries := by
  cases f <;> exact ⟨rfl, rfl, rfl⟩

/-- For the local site `get_part_id` returns the cached id and changes
nothing. -/
theorem get_part_id_local {T : Type} (self : distributed_matrix) (rt : runtime T)
    (racing : List (Nat × id_type)) (h : id_type)
    (hcache : map_find self.part_ids_ self.this_site_ = some h) :
    self.get_part_id rt self.this_site_ racing = (.returned h, self, rt) := by
  unfold distributed_matrix.get_part_id
  simp only [if_true, map_index, hcache]

/-- A constructor that returns leaves the id of the new partition in
`part_ids_` under `this_site_`, with the site below `num_sites_`. -/
theorem construct_local_part {T : Type} (rt : runtime T) (b : String) (d : CustomMatrix T)
    (num_sites this_site : Nat) (tb : Option Nat)
    (hret : (distributed_matrix.construct rt b d num_sites this_site tb).1 = .returned ()) :
    (distributed_matrix.construct rt b d num_sites this_site tb).2.1.this_site_
        < (distributed_matrix.construct rt b d num_sites this_site tb).2.1.num_sites_
    ∧ map_find (distributed_matrix.construct rt b d num_sites this_site tb).2.1.part_ids_
        (distributed_matrix.construct rt b d num_sites this_site tb).2.1.this_site_
        = some (fresh_id rt)
    ∧ map_find (distributed_matrix.construct rt b d num_sites this_site tb).2.2.components
        (fresh_id rt) = some ⟨d⟩ := by
  by_cases hcheck : (distributed_matrix.init rt b num_sites this_site tb).this_site_
      < (distributed_matrix.init rt b num_sites this_site tb).num_sites_
  · have hc : map_find (rt.components ++ [(fresh_id rt, (⟨d⟩ : server.distributed_matrix_part T))])
        (fresh_id rt) = some ⟨d⟩ := by
      rw [map_find_append_none _ _ _ (fresh_id_unused rt)]
      exact map_find_singleton _ _
    cases hb : map_find rt.symbols (name_from_basename ("dist_matrix_" ++ b)
        (distributed_matrix.init rt b num_sites this_site tb).this_site_) with
    | none =>
      rw [construct_fresh rt b d num_sites this_site tb hcheck hb]
      exact ⟨hcheck, map_find_singleton _ _, hc⟩
    | some other =>
      rw [construct_bound rt b d num_sites this_site tb other hcheck hb]
      exact ⟨hcheck, map_find_singleton _ _, hc⟩
  · have h' : (distributed_matrix.init rt b num_sites this_site tb).this_site_
        ≥ (distributed_matrix.init rt b num_sites this_site tb).num_sites_ := by omega
    unfold distributed_matrix.construct at hret
    simp only [h', if_true] at hret
    exact absurd hret (by simp)

theorem map_find_assign_ne {K V : Type} [DecidableEq K] (m : List (K × V)) (k k' : K) (v : V)
    (h : k' ≠ k) : map_find (map_assign m k v) k' = map_find m k' := by
  induction m with
  | nil =>
    have h' : ¬ k = k' := fun e => h e.symm
    simp [map_assign, map_find, h']
  | cons e t ih =>
    obtain ⟨k1, v1⟩ := e
    by_cases hk : k1 = k
    · have h' : ¬ k = k' := fun e => h e.symm
      have h'' : ¬ k1 = k' := fun e => h (e.symm.trans hk)
      simp [map_assign, map_find, hk, h', h'']
    · by_cases hk' : k1 = k'
      · subst hk'
        simp [map_assign, map_find, hk]
      · simp [map_assign, map_find, hk, hk', ih]

/-- No array lies at the address that an allocation returns. -/
theorem new_address_unused {T : Type} (mem : element_memory T) :
    map_find mem (new_address mem) = none := by
  cases hf : map_find mem (new_address mem) with
  | none => rfl
  | some v =>
    have hm := map_find_mem _ _ _ hf
    have hx : new_address mem ∈ mem.map Prod.fst :=
      List.mem_map.mpr ⟨(new_address mem, v), hm, rfl⟩
    have := le_foldr_max _ _ hx
    unfold new_address at this
    omega

/-- The object that the server side `fetch` returns owns a newly allocated
array holding the elements of the partition, and writes to it do not reach
the array of the partition. -/
theorem fetch_object_is_a_copy {T : Type} (tr : element_traits)
    (part : server.distributed_matrix_part T) (mem : element_memory T)
    (obj : server.distributed_matrix_part_object)
    (hobj : obj.data_.value mem = some part.data_) :
    ∃ r, (obj.fetch tr mem).1 = some r
      ∧ r.v_ ≠ obj.data_.pointer_
      ∧ map_find mem r.v_ = none
      ∧ r.value (obj.fetch tr mem).2 = some (part.fetch tr)
      ∧ (∀ a v, map_find mem a = some v → map_find (obj.fetch tr mem).2 a = some v)
      ∧ obj.data_.value (obj.fetch tr mem).2 = some part.data_
      ∧ ∀ (i j : Nat) (x : T),
          obj.data_.value (r.assign (obj.fetch tr mem).2 i j x) = some part.data_
          ∧ ∃ r2, (obj.fetch tr (r.assign (obj.fetch tr mem).2 i j x)).1 = some r2
              ∧ r2.value (obj.fetch tr (r.assign (obj.fetch tr mem).2 i j x)).2
                  = some (part.fetch tr) := by
  obtain ⟨⟨p, m, n⟩⟩ := obj
  obtain ⟨⟨pm, pn, pv⟩⟩ := part
  simp only [CustomMatrixObject.value, Option.map_eq_some'] at hobj
  obtain ⟨v, hv, hpart⟩ := hobj
  injection hpart with e1 e2 e3
  subst e1; subst e2; subst e3
  have hfresh := new_address_unused mem
  have hne : new_address mem ≠ p := by
    intro e
    rw [e, hv] at hfresh
    exact absurd hfresh (by simp)
  have hfetch : (server.distributed_matrix_part_object.fetch tr ⟨⟨p, m, n⟩⟩ mem)
      = (some ⟨new_address mem, m, n, addPadding tr n, m * addPadding tr n⟩,
          mem ++ [(new_address mem, v)]) := by
    simp only [server.distributed_matrix_part_object.fetch, hv]
  have hnew : map_find (mem ++ [(new_address mem, v)]) (new_address mem) = some v := by
    rw [map_find_append_none _ _ _ hfresh]
    exact map_find_singleton _ _
  have hold : map_find (mem ++ [(new_address mem, v)]) p = some v :=
    map_find_append_some _ _ _ _ hv
  rw [hfetch]
  refine ⟨_, rfl, hne, hfresh, ?_, ?_, ?_, ?_⟩
  · simp only [DynamicMatrixObject.value, hnew, Option.map_some',
      server.distributed_matrix_part.fetch, DynamicMatrix.create]
  · intro a w ha
    exact map_find_append_some _ _ _ _ ha
  · simp only [CustomMatrixObject.value, hold, Option.map_some']
  · intro i j x
    have hwrite : map_find
        ((⟨new_address mem, m, n, addPadding tr n, m * addPadding tr n⟩ : DynamicMatrixObject).assign
          (mem ++ [(new_address mem, v)]) i j x) p = some v := by
      simp only [DynamicMatrixObject.assign, hnew]
      cases v[i]? with
      | none => exact hold
      | some r =>
        simp only
        rw [map_find_assign_ne _ _ _ _ (fun e => hne e.symm)]
        exact hold
    refine ⟨?_, ?_⟩
    · simp only [CustomMatrixObject.value, hwrite, Option.map_some']
    · have hfresh2 := new_address_unused
        ((⟨new_address mem, m, n, addPadding tr n, m * addPadding tr n⟩ : DynamicMatrixObject).assign
          (mem ++ [(new_address mem, v)]) i j x)
      have hfetch2 : server.distributed_matrix_part_object.fetch tr ⟨⟨p, m, n⟩⟩
          ((⟨new_address mem, m, n, addPadding tr n, m * addPadding tr n⟩ :
            DynamicMatrixObject).assign (mem ++ [(new_address mem, v)]) i j x)
          = (some ⟨new_address ((⟨new_address mem, m, n, addPadding tr n, m * addPadding tr n⟩ :
                DynamicMatrixObject).assign (mem ++ [(new_address mem, v)]) i j x),
              m, n, addPadding tr n, m * addPadding tr n⟩,
            (⟨new_address mem, m, n, addPadding tr n, m * addPadding tr n⟩ :
                DynamicMatrixObject).assign (mem ++ [(new_address mem, v)]) i j x
              ++ [(new_address ((⟨new_address mem, m, n, addPadding tr n, m * addPadding tr n⟩ :
                DynamicMatrixObject).assign (mem ++ [(new_address mem, v)]) i j x), v)]) := by
        simp only [server.distributed_matrix_part_object.fetch, hwrite]
      rw [hfetch2]
      refine ⟨_, rfl, ?_⟩
      simp only [DynamicMatrixObject.value]
      rw [map_find_append_none _ _ _ hfresh2, map_find_singleton]
      simp only [Option.map_some', server.distributed_matrix_part.fetch, DynamicMatrix.create]

/-- C7: for an array whose `part_ids_` holds the id `h` of its local
partition `part`: `fetch(this_site_)` takes the id from `get_part_id` and
runs the fetch action on it, as `fetch` does for every site; the future
holds a matrix with the dimensions and the elements of the data of the
partition; the members, the components (so the data of the partition), the
names and the record of queries are as before, and a further
`fetch(this_site_)` returns the same matrix.  The returned matrix is not the
partition itself: wherever the partition lies in memory, the object that
the server side `fetch` returns owns a newly allocated array, at another
address than the array `data_` refers to, holding the same elements; the
fetch changes no array that was there; whatever element of the returned
object is assigned afterwards, the array of the partition holds what it
held, and the next fetch returns the original elements again. -/
theorem fetch_local_copy {T : Type} (tr : element_traits) (self : distributed_matrix)
    (rt : runtime T) (racing : List (Nat × id_type)) (h : id_type)
    (part : server.distributed_matrix_part T)
    (hcache : map_find self.part_ids_ self.this_site_ = some h)
    (hpart : map_find rt.components h = some part) :
    self.get_part_id rt self.this_site_ racing = (.returned h, self, rt)
    ∧ (∀ idx id, (self.get_part_id rt idx racing).1 = .returned id →
        (self.fetch tr rt idx racing).1 = .returned (async_fetch tr rt id))
    ∧ (self.fetch tr rt self.this_site_ racing).1 = .returned (.ready (part.fetch tr))
    ∧ (part.fetch tr).rows = part.data_.m_
    ∧ (part.fetch tr).columns = part.data_.n_
    ∧ (∀ i j, (part.fetch tr).elem i j = part.data_.elem i j)
    ∧ (self.fetch tr rt self.this_site_ racing).2.1 = self
    ∧ (self.fetch tr rt self.this_site_ racing).2.2.components = rt.components
    ∧ (self.fetch tr rt self.this_site_ racing).2.2.symbols = rt.symbols
    ∧ (self.fetch tr rt self.this_site_ racing).2.2.queries = rt.queries
    ∧ map_find (self.fetch tr rt self.this_site_ racing).2.2.components h = some part
    ∧ (∀ racing2,
        ((self.fetch tr rt self.this_site_ racing).2.1.fetch tr
            (self.fetch tr rt self.this_site_ racing).2.2 self.this_site_ racing2).1
          = .returned (.ready (part.fetch tr)))
    ∧ (∀ (mem : element_memory T) (obj : server.distributed_matrix_part_object),
        obj.data_.value mem = some part.data_ →
        ∃ r, (obj.fetch tr mem).1 = some r
          ∧ r.v_ ≠ obj.data_.pointer_
          ∧ map_find mem r.v_ = none
          ∧ r.value (obj.fetch tr mem).2 = some (part.fetch tr)
          ∧ (∀ a v, map_find mem a = some v → map_find (obj.fetch tr mem).2 a = some v)
          ∧ obj.data_.value (obj.fetch tr mem).2 = some part.data_
          ∧ ∀ (i j : Nat) (x : T),
              obj.data_.value (r.assign (obj.fetch tr mem).2 i j x) = some part.data_
              ∧ ∃ r2, (obj.fetch tr (r.assign (obj.fetch tr mem).2 i j x)).1 = some r2
                  ∧ r2.value (obj.fetch tr (r.assign (obj.fetch tr mem).2 i j x)).2
                      = some (part.fetch tr)) := by
  have hg := get_part_id_local self rt racing h hcache
  have hfetch : ∀ (rt' : runtime T) (rc : List (Nat × id_type)),
      map_find rt'.components h = some part →
      (self.fetch tr rt' self.this_site_ rc).1 = .returned (.ready (part.fetch tr)) := by
    intro rt' rc hp
    rw [fetch_result tr self rt' self.this_site_ rc h
      (by rw [get_part_id_local self rt' rc h hcache])]
    unfold async_fetch
    rw [hp]
  have hstate : (self.fetch tr rt self.this_site_ racing).2.1 = self
      ∧ (self.fetch tr rt self.this_site_ racing).2.2.components = rt.components
      ∧ (self.fetch tr rt self.this_site_ racing).2.2.symbols = rt.symbols
      ∧ (self.fetch tr rt self.this_site_ racing).2.2.queries = rt.queries := by
    unfold distributed_matrix.fetch
    rw [hg]
    cases htb : self.transferred_bytes_ with
    | none => simp [htb]
    | some counter =>
      obtain ⟨f1, f2, f3⟩ := on_completed_frame tr rt counter (async_fetch tr rt h)
      simp [htb, f1, f2, f3]
  obtain ⟨hs1, hs2, hs3, hs4⟩ := hstate
  refine ⟨hg, ?_, hfetch rt racing hpart, rfl, rfl, fun _ _ => rfl, hs1, hs2, hs3, hs4, ?_, ?_,
    ?_⟩
  · intro idx id hid
    exact fetch_result tr self rt idx racing id hid
  · rw [hs2]; exact hpart
  · intro racing2
    rw [hs1]
    exact hfetch _ racing2 (by rw [hs2]; exact hpart)
  · intro mem obj hobj
    exact fetch_object_is_a_copy tr part mem obj hobj

/-- C7 for the matrix `m` constructed on site `1`, its partition lying at
the address `1`: the fetched object owns the array at the address `2`;
assigning `99` to its first element leaves the partition as it was, whereas
the same assignment through an object that owned the array at the address
`1` would have changed the partition. -/
theorem fetch_local_copy_witness :
    (dm_m1.fetch tr_simd4 rt_m1 dm_m1.this_site_ []).1
        = .returned (.ready ((⟨d44⟩ : server.distributed_matrix_part Nat).fetch tr_simd4))
    ∧ (∃ r, (part_object_d44.fetch tr_simd4 mem_d44).1 = some r
        ∧ r.v_ ≠ part_object_d44.data_.pointer_
        ∧ map_find mem_d44 r.v_ = none
        ∧ r.value (part_object_d44.fetch tr_simd4 mem_d44).2
            = some ((⟨d44⟩ : server.distributed_matrix_part Nat).fetch tr_simd4)
        ∧ (∀ a v, map_find mem_d44 a = some v →
            map_find (part_object_d44.fetch tr_simd4 mem_d44).2 a = some v)
        ∧ part_object_d44.data_.value (part_object_d44.fetch tr_simd4 mem_d44).2 = some d44
        ∧ ∀ (i j : Nat) (x : Nat),
            part_object_d44.data_.value
                (r.assign (part_object_d44.fetch tr_simd4 mem_d44).2 i j x) = some d44
            ∧ ∃ r2, (part_object_d44.fetch tr_simd4
                  (r.assign (part_object_d44.fetch tr_simd4 mem_d44).2 i j x)).1 = some r2
                ∧ r2.value (part_object_d44.fetch tr_simd4
                    (r.assign (part_object_d44.fetch tr_simd4 mem_d44).2 i j x)).2
                  = some ((⟨d44⟩ : server.distributed_matrix_part Nat).fetch tr_simd4))
    ∧ (part_object_d44.fetch tr_simd4 mem_d44).1 = some ⟨2, 4, 4, 4, 16⟩
    ∧ part_object_d44.data_.value
        ((⟨2, 4, 4, 4, 16⟩ : DynamicMatrixObject).assign
          (part_object_d44.fetch tr_simd4 mem_d44).2 0 0 99) = some d44
    ∧ part_object_d44.data_.value
        ((⟨1, 4, 4, 4, 16⟩ : DynamicMatrixObject).assign
          (part_object_d44.fetch tr_simd4 mem_d44).2 0 0 99) ≠ some d44 :=
  ⟨(fetch_local_copy tr_simd4 dm_m1 rt_m1 [] 1 ⟨d44⟩ (by decide) (by decide)).2.2.1,
    (fetch_local_copy tr_simd4 dm_m1 rt_m1 [] 1 ⟨d44⟩ (by decide) (by decide)).2.2.2.2.2.2.2.2.2.2.2.2
      mem_d44 part_object_d44 (by decide),
    by decide, by decide, by decide⟩

/-! ### An invalid site index -/

/-- `get_part_id` throws exactly for an index that is not below
`num_sites_`, and then with nothing changed. -/
theorem get_part_id_throws {T : Type} (self : distributed_matrix) (rt : runtime T) (idx : Nat)
    (racing : List (Nat × id_type)) (hsite : self.this_site_ < self.num_sites_) :
    (idx ≥ self.num_sites_ →
      self.get_part_id rt idx racing
        = (.threw ⟨.no_success, "distributed_matrix::get_part_id",
            "attempting to access invalid part of the distributed matrix"⟩, self, rt))
    ∧ (idx < self.num_sites_ → ∀ e, (self.get_part_id rt idx racing).1 ≠ .threw e) := by
  constructor
  · intro h
    have hne : idx ≠ self.this_site_ := by omega
    unfold distributed_matrix.get_part_id
    simp only [hne, if_false, h, if_true]
  · intro h e
    have h' : ¬ idx ≥ self.num_sites_ := by omega
    unfold distributed_matrix.get_part_id
    split
    · simp
    · simp only [h', if_false]
      split
      · simp
      · split
        · simp
        · split <;> simp

/-- `fetch` throws exactly what `get_part_id` throws. -/
theorem fetch_threw_iff {T : Type} (tr : element_traits) (self : distributed_matrix)
    (rt : runtime T) (idx : Nat) (racing : List (Nat × id_type)) (r0 c0 r1 c1 : Nat)
    (e : exception) :
    ((self.fetch tr rt idx racing).1 = .threw e ↔ (self.get_part_id rt idx racing).1 = .threw e)
    ∧ ((self.fetch_range tr rt idx r0 c0 r1 c1 racing).1 = .threw e
        ↔ (self.get_part_id rt idx racing).1 = .threw e) := by
  unfold distributed_matrix.fetch distributed_matrix.fetch_range
  rcases hg : self.get_part_id rt idx racing with ⟨c, self1, rt1⟩
  cases c with
  | threw e' => simp
  | suspended => simp
  | returned id => cases htb : self1.transferred_bytes_ <;> simp [htb]

theorem async_fetch_error {T : Type} (tr : element_traits) (rt : runtime T) (id : id_type)
    (e : exception) (h : async_fetch tr rt id = .exceptional e) : e.code ≠ .no_success := by
  unfold async_fetch at h
  split at h
  · exact absurd h (by simp)
  · injection h with h
    subst h
    simp

theorem async_fetch_part_error {T : Type} (tr : element_traits) (rt : runtime T) (id : id_type)
    (r0 c0 r1 c1 : Nat) (e : exception)
    (h : async_fetch_part tr rt id r0 c0 r1 c1 = .exceptional e) : e.code ≠ .no_success := by
  unfold async_fetch_part at h
  split at h
  · unfold server.distributed_matrix_part.fetch_part at h
    split at h
    · exact absurd h (by simp)
    · rename_i e' hs
      split at hs
      · rename_i e'' hsub
        unfold submatrix at hsub
        split at hsub
        · injection hsub with hsub
          injection hs with hs
          injection h with h
          subst hsub
          subst hs
          subst h
          simp
        · exact absurd hsub (by simp)
      · exact absurd hs (by simp)
  · injection h with h
    subst h
    simp

/-- C8, as amended: for an array with `this_site_ < num_sites_` and every
`idx`, both `fetch` overloads throw if and only if `idx >= num_sites_`; the
exception is the `no_success` of `get_part_id`, thrown out of `fetch`
itself before any future exists, with the members (so the handle cache) and
the runtime (so the record of name-service queries) exactly as they were;
and no future that `fetch` returns carries a `no_success` error. -/
theorem fetch_invalid_site {T : Type} (tr : element_traits) (self : distributed_matrix)
    (rt : runtime T) (idx : Nat) (racing : List (Nat × id_type)) (r0 c0 r1 c1 : Nat)
    (hsite : self.this_site_ < self.num_sites_) :
    ((∃ e, (self.fetch tr rt idx racing).1 = .threw e) ↔ idx ≥ self.num_sites_)
    ∧ ((∃ e, (self.fetch_range tr rt idx r0 c0 r1 c1 racing).1 = .threw e)
        ↔ idx ≥ self.num_sites_)
    ∧ (idx ≥ self.num_sites_ →
        self.fetch tr rt idx racing
          = (.threw ⟨.no_success, "distributed_matrix::get_part_id",
              "attempting to access invalid part of the distributed matrix"⟩, self, rt)
        ∧ self.fetch_range tr rt idx r0 c0 r1 c1 racing
          = (.threw ⟨.no_success, "distributed_matrix::get_part_id",
              "attempting to access invalid part of the distributed matrix"⟩, self, rt))
    ∧ (∀ f e, (self.fetch tr rt idx racing).1 = .returned f
          ∨ (self.fetch_range tr rt idx r0 c0 r1 c1 racing).1 = .returned f →
        f = .exceptional e → e.code ≠ .no_success) := by
  obtain ⟨hthrow, hnothrow⟩ := get_part_id_throws self rt idx racing hsite
  have hinv : idx ≥ self.num_sites_ →
      self.fetch tr rt idx racing
          = (.threw ⟨.no_success, "distributed_matrix::get_part_id",
              "attempting to access invalid part of the distributed matrix"⟩, self, rt)
        ∧ self.fetch_range tr rt idx r0 c0 r1 c1 racing
          = (.threw ⟨.no_success, "distributed_matrix::get_part_id",
              "attempting to access invalid part of the distributed matrix"⟩, self, rt) := by
    intro h
    have hg := hthrow h
    unfold distributed_matrix.fetch distributed_matrix.fetch_range
    rw [hg]
    exact ⟨rfl, rfl⟩
  refine ⟨⟨?_, ?_⟩, ⟨?_, ?_⟩, hinv, ?_⟩
  · rintro ⟨e, he⟩
    by_contra hlt
    exact hnothrow (by omega) e
      ((fetch_threw_iff tr self rt idx racing r0 c0 r1 c1 e).1.mp he)
  · intro h
    exact ⟨_, by rw [(hinv h).1]⟩
  · rintro ⟨e, he⟩
    by_contra hlt
    exact hnothrow (by omega) e
      ((fetch_threw_iff tr self rt idx racing r0 c0 r1 c1 e).2.mp he)
  · intro h
    exact ⟨_, by rw [(hinv h).2]⟩
  · intro f e hf hfe
    subst hfe
    rcases hf with hf | hf
    · obtain ⟨⟨id, _, hid⟩, _, _⟩ := fetch_cases tr self rt idx racing _ hf
      exact async_fetch_error tr rt id e hid.symm
    · obtain ⟨⟨id, _, hid⟩, _, _⟩ := fetch_range_cases tr self rt idx racing r0 c0 r1 c1 _ hf
      exact async_fetch_part_error tr rt id r0 c0 r1 c1 e hid.symm

/-- C8 for the matrix `m` of three sites and the index `7`. -/
theorem fetch_invalid_site_witness :
    ((∃ e, (dm_m1.fetch tr_simd4 rt_m1 7 []).1 = .threw e) ↔ 7 ≥ dm_m1.num_sites_)
    ∧ ((∃ e, (dm_m1.fetch_range tr_simd4 rt_m1 7 1 0 3 2 []).1 = .threw e)
        ↔ 7 ≥ dm_m1.num_sites_)
    ∧ (7 ≥ dm_m1.num_sites_ →
        dm_m1.fetch tr_simd4 rt_m1 7 []
          = (.threw ⟨.no_success, "distributed_matrix::get_part_id",
              "attempting to access invalid part of the distributed matrix"⟩, dm_m1, rt_m1)
        ∧ dm_m1.fetch_range tr_simd4 rt_m1 7 1 0 3 2 []
          = (.threw ⟨.no_success, "distributed_matrix::get_part_id",
              "attempting to access invalid part of the distributed matrix"⟩, dm_m1, rt_m1))
    ∧ (∀ f e, (dm_m1.fetch tr_simd4 rt_m1 7 []).1 = .returned f
          ∨ (dm_m1.fetch_range tr_simd4 rt_m1 7 1 0 3 2 []).1 = .returned f →
        f = .exceptional e → e.code ≠ .no_success) :=
  fetch_invalid_site tr_simd4 dm_m1 rt_m1 7 [] 1 0 3 2 (by decide)

/-- C8 as stated fails: for the index `7` of three sites both `fetch`
overloads end by throwing, so no future is returned that could carry the
error. -/
theorem fetch_invalid_site_counterexample :
    7 ≥ dm_m1.num_sites_
    ∧ (dm_m1.fetch tr_simd4 rt_m1 7 []).1
        = .threw ⟨.no_success, "distributed_matrix::get_part_id",
            "attempting to access invalid part of the distributed matrix"⟩
    ∧ (dm_m1.fetch_range tr_simd4 rt_m1 7 1 0 3 2 []).1
        = .threw ⟨.no_success, "distributed_matrix::get_part_id",
            "attempting to access invalid part of the distributed matrix"⟩
    ∧ (¬ ∃ f, (dm_m1.fetch tr_simd4 rt_m1 7 []).1 = .returned f)
    ∧ (¬ ∃ f, (dm_m1.fetch_range tr_simd4 rt_m1 7 1 0 3 2 []).1 = .returned f) := by
  have h1 : (dm_m1.fetch tr_simd4 rt_m1 7 []).1
      = .threw ⟨.no_success, "distributed_matrix::get_part_id",
          "attempting to access invalid part of the distributed matrix"⟩ := by decide
  have h2 : (dm_m1.fetch_range tr_simd4 rt_m1 7 1 0 3 2 []).1
      = .threw ⟨.no_success, "distributed_matrix::get_part_id",
          "attempting to access invalid part of the distributed matrix"⟩ := by decide
  refine ⟨by decide, h1, h2, ?_, ?_⟩
  · rintro ⟨f, hf⟩
    rw [h1] at hf
    exact absurd hf (by simp)
  · rintro ⟨f, hf⟩
    rw [h2] at hf
    exact absurd hf (by simp)

/-! ### Resolving the part of another site -/

theorem map_emplace_preserves {K V : Type} [DecidableEq K] (m : List (K × V)) (k k' : K)
    (v v' : V) (h : map_find m k = some v) : map_find (map_emplace m k' v') k = some v := by
  unfold map_emplace
  split
  · exact h
  · exact map_find_append_some _ _ _ _ h

theorem foldl_emplace_preserves {K V : Type} [DecidableEq K] (racing : List (K × V)) :
    ∀ (m : List (K × V)) (k : K) (v : V), map_find m k = some v →
      map_find (racing.foldl (fun m e => map_emplace m e.1 e.2) m) k = some v := by
  induction racing with
  | nil => intro m k v h; exact h
  | cons e t ih =>
    intro m k v h
    simp only [List.foldl_cons]
    exact ih _ k v (map_emplace_preserves m k e.1 v e.2 h)

theorem map_emplace_of_none {K V : Type} [DecidableEq K] (m : List (K × V)) (k : K) (v : V)
    (h : map_find m k = none) : map_emplace m k v = m ++ [(k, v)] := by
  unfold map_emplace
  rw [h]

theorem map_find_emplace_self {K V : Type} [DecidableEq K] (m : List (K × V)) (k : K) (v : V)
    (h : map_find m k = none) : map_find (map_emplace m k v) k = some v := by
  unfold map_emplace
  rw [h]
  simp only
  rw [map_find_append_none _ _ _ h]
  exact map_find_singleton _ _

/-- `get_part_id` for the index of another site. -/
theorem get_part_id_remote {T : Type} (self : distributed_matrix) (rt : runtime T) (idx : Nat)
    (racing : List (Nat × id_type))
    (hne : idx ≠ self.this_site_) (hlt : idx < self.num_sites_) :
    self.get_part_id rt idx racing
      = match map_find self.part_ids_ idx with
        | some id => (.returned id, self, rt)
        | none =>
          match map_find rt.symbols (name_from_basename self.basename_ idx) with
          | none =>
            (.suspended, self,
              { rt with queries := rt.queries ++ [name_from_basename self.basename_ idx] })
          | some id =>
            match map_find (racing.foldl (fun m e => map_emplace m e.1 e.2) self.part_ids_)
                idx with
            | some found =>
              (.returned found,
                { self with
                  part_ids_ := racing.foldl (fun m e => map_emplace m e.1 e.2) self.part_ids_ },
                { rt with queries := rt.queries ++ [name_from_basename self.basename_ idx] })
            | none =>
              (.returned id,
                { self with
                  part_ids_ := map_emplace
                    (racing.foldl (fun m e => map_emplace m e.1 e.2) self.part_ids_) idx id },
                { rt with queries := rt.queries ++ [name_from_basename self.basename_ idx] }) := by
  have h' : ¬ idx ≥ self.num_sites_ := by omega
  unfold distributed_matrix.get_part_id
  simp only [hne, if_false, h']

/-- C9: for `idx < num_sites_` other than `this_site_`: (a) an id cached
for `idx` is returned with the members and the runtime untouched, so
without a query; (b) on a miss the name queried is that of `basename_` and
`idx`, the one under which `create_and_register_server` of the array of
site `idx` binds its partition, and with the name bound the entry found
under `idx` when the lock is taken again is returned, an entry with the
resolved id being added only when there is none; the call suspends only on
a miss for an unbound name; (c) every entry of `part_ids_` is still there
afterwards with the same id; (d) when the call returns, `part_ids_` maps
`idx` to the id returned. -/
theorem get_part_id_first_insert_wins {T : Type} (self : distributed_matrix) (rt : runtime T)
    (idx : Nat) (racing : List (Nat × id_type))
    (hne : idx ≠ self.this_site_) (hlt : idx < self.num_sites_) :
    (∀ id, map_find self.part_ids_ idx = some id →
        self.get_part_id rt idx racing = (.returned id, self, rt))
    ∧ (map_find self.part_ids_ idx = none →
        (self.get_part_id rt idx racing).2.2.queries
            = rt.queries ++ [name_from_basename self.basename_ idx]
        ∧ (∀ (other : distributed_matrix) (rt0 : runtime T) (value : CustomMatrix T),
            other.basename_ = self.basename_ → other.this_site_ = idx →
            map_find rt0.symbols (name_from_basename self.basename_ idx) = none →
            map_find (other.create_and_register_server rt0 value).2.2.symbols
                (name_from_basename self.basename_ idx)
              = some (other.create_and_register_server rt0 value).1)
        ∧ (∀ id, map_find rt.symbols (name_from_basename self.basename_ idx) = some id →
            (∀ found,
              map_find (racing.foldl (fun m e => map_emplace m e.1 e.2) self.part_ids_) idx
                  = some found →
              (self.get_part_id rt idx racing).1 = .returned found
              ∧ (self.get_part_id rt idx racing).2.1.part_ids_
                  = racing.foldl (fun m e => map_emplace m e.1 e.2) self.part_ids_)
            ∧ (map_find (racing.foldl (fun m e => map_emplace m e.1 e.2) self.part_ids_) idx
                  = none →
              (self.get_part_id rt idx racing).1 = .returned id
              ∧ (self.get_part_id rt idx racing).2.1.part_ids_
                  = racing.foldl (fun m e => map_emplace m e.1 e.2) self.part_ids_
                      ++ [(idx, id)]))
        ∧ (map_find rt.symbols (name_from_basename self.basename_ idx) = none →
            (self.get_part_id rt idx racing).1 = .suspended))
    ∧ (∀ k v, map_find self.part_ids_ k = some v →
        map_find (self.get_part_id rt idx racing).2.1.part_ids_ k = some v)
    ∧ (∀ id, (self.get_part_id rt idx racing).1 = .returned id →
        map_find (self.get_part_id rt idx racing).2.1.part_ids_ idx = some id) := by
  have hg := get_part_id_remote self rt idx racing hne hlt
  refine ⟨?_, ?_, ?_, ?_⟩
  · intro id hc
    rw [hg, hc]
  · intro hmiss
    rw [hg, hmiss]
    refine ⟨?_, ?_, ?_, ?_⟩
    · simp only
      cases map_find rt.symbols (name_from_basename self.basename_ idx) with
      | none => rfl
      | some id =>
        simp only
        cases map_find (racing.foldl (fun m e => map_emplace m e.1 e.2) self.part_ids_) idx
          <;> rfl
    · intro other rt0 value hb hs hfree
      have hfree' : map_find (local_new rt0 value).2.symbols
          (name_from_basename other.basename_ other.this_site_) = none := by
        rw [hb, hs]; exact hfree
      simp only [distributed_matrix.create_and_register_server, register_with_basename, hfree']
      rw [← hb, ← hs]
      rw [hb, hs] at hfree' ⊢
      show map_find ((local_new rt0 value).2.symbols
          ++ [(name_from_basename self.basename_ idx, (local_new rt0 value).1)])
          (name_from_basename self.basename_ idx) = some (local_new rt0 value).1
      rw [map_find_append_none _ _ _ hfree']
      exact map_find_singleton _ _
    · intro id hsym
      rw [hsym]
      refine ⟨?_, ?_⟩
      · intro found hf
        rw [hf]
        exact ⟨rfl, rfl⟩
      · intro hnone
        rw [hnone]
        refine ⟨rfl, ?_⟩
        exact map_emplace_of_none _ _ _ hnone
    · intro hsym
      rw [hsym]
  · intro k v hkv
    rw [hg]
    cases hc : map_find self.part_ids_ idx with
    | some id => exact hkv
    | none =>
      simp only
      cases map_find rt.symbols (name_from_basename self.basename_ idx) with
      | none => exact hkv
      | some id =>
        simp only
        have hpres := foldl_emplace_preserves racing self.part_ids_ k v hkv
        cases hr : map_find (racing.foldl (fun m e => map_emplace m e.1 e.2) self.part_ids_) idx
          with
        | some found => exact hpres
        | none => exact map_emplace_preserves _ k idx v id hpres
  · intro id hret
    rw [hg] at hret ⊢
    cases hc : map_find self.part_ids_ idx with
    | some id' =>
      rw [hc] at hret
      simp only at hret ⊢
      injection hret with hret
      rw [← hret]; exact hc
    | none =>
      rw [hc] at hret
      simp only at hret ⊢
      cases hsym : map_find rt.symbols (name_from_basename self.basename_ idx) with
      | none => rw [hsym] at hret; simp at hret
      | some id' =>
        rw [hsym] at hret
        simp only at hret ⊢
        cases hr : map_find (racing.foldl (fun m e => map_emplace m e.1 e.2) self.part_ids_) idx
          with
        | some found =>
          rw [hr] at hret
          simp only at hret ⊢
          injection hret with hret
          rw [← hret]; exact hr
        | none =>
          rw [hr] at hret
          simp only at hret ⊢
          injection hret with hret
          rw [← hret]
          exact map_find_emplace_self _ _ _ hr

/-- C9 for the matrix `m` of site `1` resolving the part of site `2`, which
is registered under the id `2`. -/
theorem get_part_id_first_insert_wins_witness :
    (∀ id, (dm_m1.get_part_id rt_m12 2 []).1 = .returned id →
        map_find (dm_m1.get_part_id rt_m12 2 []).2.1.part_ids_ 2 = some id)
    ∧ dm_m1.get_part_id rt_m12 2 []
        = (.returned 2, { dm_m1 with part_ids_ := [(1, 1), (2, 2)] },
            { rt_m12 with queries := [("dist_matrix_m", 2)] }) :=
  ⟨(get_part_id_first_insert_wins dm_m1 rt_m12 2 [] (by decide) (by decide)).2.2.2, by decide⟩

/-! ### Destruction -/

theorem init_congr {T : Type} (rt rt2 : runtime T) (b : String) (num_sites this_site : Nat)
    (tb : Option Nat) (h1 : rt2.num_localities = rt.num_localities)
    (h2 : rt2.locality_id = rt.locality_id) :
    distributed_matrix.init rt2 b num_sites this_site tb
      = distributed_matrix.init rt b num_sites this_site tb := by
  simp only [distributed_matrix.init, h1, h2]

/-- C10, as amended: for a construction that passes the site check and whose
name (`"dist_matrix_" + b`, `this_site`) is not bound beforehand: the
destructor removes exactly that name, so that after construction and
destruction the names are bound as before the construction; a new array
constructed with the same base name on the same site then returns normally
and its name is bound to its new partition, which holds the new data.
`get_part_id` of an array of another site with that base name resolves the
site to that partition when that array has no id cached for the site,
neither from before nor emplaced by another thread meanwhile; an array that
has an id cached for the site returns the cached id, without asking the
name service. -/
theorem destroy_undoes_registration {T : Type} (rt : runtime T) (b : String)
    (d d2 : CustomMatrix T) (num_sites this_site : Nat) (tb : Option Nat)
    (hsite : this_site < num_sites) (h64 : num_sites ≤ npos)
    (hcheck : this_site < (distributed_matrix.init rt b num_sites this_site tb).num_sites_)
    (hfresh : map_find rt.symbols (name_from_basename ("dist_matrix_" ++ b) this_site) = none) :
    (construct_then_destroy rt b d num_sites this_site tb).symbols
        = map_erase (distributed_matrix.construct rt b d num_sites this_site tb).2.2.symbols
            (name_from_basename ("dist_matrix_" ++ b) this_site)
    ∧ (construct_then_destroy rt b d num_sites this_site tb).symbols = rt.symbols
    ∧ (distributed_matrix.construct (construct_then_destroy rt b d num_sites this_site tb)
          b d2 num_sites this_site tb).1 = .returned ()
    ∧ map_find (distributed_matrix.construct
          (construct_then_destroy rt b d num_sites this_site tb)
          b d2 num_sites this_site tb).2.2.symbols
        (name_from_basename ("dist_matrix_" ++ b) this_site)
        = some (fresh_id (construct_then_destroy rt b d num_sites this_site tb))
    ∧ map_find (distributed_matrix.construct
          (construct_then_destroy rt b d num_sites this_site tb)
          b d2 num_sites this_site tb).2.2.components
        (fresh_id (construct_then_destroy rt b d num_sites this_site tb)) = some ⟨d2⟩
    ∧ (distributed_matrix.construct (construct_then_destroy rt b d num_sites this_site tb)
          b d2 num_sites this_site tb).2.1.part_ids_
        = [(this_site, fresh_id (construct_then_destroy rt b d num_sites this_site tb))]
    ∧ (∀ (other : distributed_matrix) (racing : List (Nat × id_type)),
        other.basename_ = "dist_matrix_" ++ b → this_site ≠ other.this_site_ →
        this_site < other.num_sites_ →
        map_find (racing.foldl (fun m e => map_emplace m e.1 e.2) other.part_ids_) this_site
          = none →
        map_find other.part_ids_ this_site = none →
        (other.get_part_id (distributed_matrix.construct
            (construct_then_destroy rt b d num_sites this_site tb)
            b d2 num_sites this_site tb).2.2 this_site racing).1
          = .returned (fresh_id (construct_then_destroy rt b d num_sites this_site tb)))
    ∧ (∀ (other : distributed_matrix) (racing : List (Nat × id_type)) (cached : id_type),
        this_site ≠ other.this_site_ → this_site < other.num_sites_ →
        map_find other.part_ids_ this_site = some cached →
        other.get_part_id (distributed_matrix.construct
            (construct_then_destroy rt b d num_sites this_site tb)
            b d2 num_sites this_site tb).2.2 this_site racing
          = (.returned cached, other, (distributed_matrix.construct
              (construct_then_destroy rt b d num_sites this_site tb)
              b d2 num_sites this_site tb).2.2)) := by
  have hne : this_site ≠ npos := by omega
  have hts := init_this_site rt b num_sites this_site tb hne
  have hcheck' : (distributed_matrix.init rt b num_sites this_site tb).this_site_
      < (distributed_matrix.init rt b num_sites this_site tb).num_sites_ := by
    rw [hts]; exact hcheck
  have hfresh' : map_find rt.symbols (name_from_basename ("dist_matrix_" ++ b)
      (distributed_matrix.init rt b num_sites this_site tb).this_site_) = none := by
    rw [hts]; exact hfresh
  have hcons := construct_fresh rt b d num_sites this_site tb hcheck' hfresh'
  rw [hts] at hcons
  have herase : (construct_then_destroy rt b d num_sites this_site tb).symbols
      = map_erase (distributed_matrix.construct rt b d num_sites this_site tb).2.2.symbols
          (name_from_basename ("dist_matrix_" ++ b) this_site) := by
    unfold construct_then_destroy distributed_matrix.destroy unregister_with_basename
    rw [hcons]
    simp only [hts]
    rfl
  have hback : (construct_then_destroy rt b d num_sites this_site tb).symbols = rt.symbols := by
    rw [herase, hcons]
    exact map_erase_append_none _ _ _ hfresh
  have hloc : (construct_then_destroy rt b d num_sites this_site tb).num_localities
        = rt.num_localities
      ∧ (construct_then_destroy rt b d num_sites this_site tb).locality_id
        = rt.locality_id := by
    unfold construct_then_destroy distributed_matrix.destroy unregister_with_basename
    rw [hcons]
    exact ⟨rfl, rfl⟩
  have hinit := init_congr rt (construct_then_destroy rt b d num_sites this_site tb) b num_sites
    this_site tb hloc.1 hloc.2
  have hcheck2 : (distributed_matrix.init (construct_then_destroy rt b d num_sites this_site tb)
      b num_sites this_site tb).this_site_
      < (distributed_matrix.init (construct_then_destroy rt b d num_sites this_site tb)
          b num_sites this_site tb).num_sites_ := by
    rw [hinit]; exact hcheck'
  have hfresh2 : map_find (construct_then_destroy rt b d num_sites this_site tb).symbols
      (name_from_basename ("dist_matrix_" ++ b)
        (distributed_matrix.init (construct_then_destroy rt b d num_sites this_site tb)
          b num_sites this_site tb).this_site_) = none := by
    rw [hinit, hback]; exact hfresh'
  have hcons2 := construct_fresh (construct_then_destroy rt b d num_sites this_site tb) b d2
    num_sites this_site tb hcheck2 hfresh2
  rw [hinit, hts] at hcons2
  have g6 : map_find (distributed_matrix.construct
      (construct_then_destroy rt b d num_sites this_site tb)
      b d2 num_sites this_site tb).2.2.symbols
      (name_from_basename ("dist_matrix_" ++ b) this_site)
      = some (fresh_id (construct_then_destroy rt b d num_sites this_site tb)) := by
    rw [hcons2]
    show map_find ((construct_then_destroy rt b d num_sites this_site tb).symbols
        ++ [(name_from_basename ("dist_matrix_" ++ b) this_site,
          fresh_id (construct_then_destroy rt b d num_sites this_site tb))])
        (name_from_basename ("dist_matrix_" ++ b) this_site) = _
    rw [map_find_append_none _ _ _ (by rw [hback]; exact hfresh)]
    exact map_find_singleton _ _
  have g4 : map_find (distributed_matrix.construct
      (construct_then_destroy rt b d num_sites this_site tb)
      b d2 num_sites this_site tb).2.2.components
      (fresh_id (construct_then_destroy rt b d num_sites this_site tb)) = some ⟨d2⟩ := by
    rw [hcons2]
    show map_find ((construct_then_destroy rt b d num_sites this_site tb).components
        ++ [(fresh_id (construct_then_destroy rt b d num_sites this_site tb),
          (⟨d2⟩ : server.distributed_matrix_part T))])
        (fresh_id (construct_then_destroy rt b d num_sites this_site tb)) = _
    rw [map_find_append_none _ _ _ (fresh_id_unused _)]
    exact map_find_singleton _ _
  refine ⟨herase, hback, by rw [hcons2], g6, g4, by rw [hcons2], ?_, ?_⟩
  · intro other racing hb hne2 hlt hrace hmiss
    have hsym : map_find (distributed_matrix.construct
        (construct_then_destroy rt b d num_sites this_site tb)
        b d2 num_sites this_site tb).2.2.symbols (name_from_basename other.basename_ this_site)
        = some (fresh_id (construct_then_destroy rt b d num_sites this_site tb)) := by
      rw [hb]; exact g6
    rw [get_part_id_remote other _ this_site racing hne2 hlt, hmiss]
    simp only
    rw [hsym]
    simp only
    rw [hrace]
  · intro other racing cached hne2 hlt hcached
    rw [get_part_id_remote other _ this_site racing hne2 hlt, hcached]

/-- C10 for the matrix `m` on site `1` of three, nothing being registered
before. -/
theorem destroy_undoes_registration_witness :
    ((construct_then_destroy rt_empty "m" d44 3 1 none).symbols = rt_empty.symbols
      ∧ (distributed_matrix.construct (construct_then_destroy rt_empty "m" d44 3 1 none)
          "m" d13 3 1 none).1 = .returned ())
    ∧ map_find (distributed_matrix.construct (construct_then_destroy rt_empty "m" d44 3 1 none)
          "m" d13 3 1 none).2.2.symbols ("dist_matrix_m", 1) = some 2
    ∧ map_find (distributed_matrix.construct (construct_then_destroy rt_empty "m" d44 3 1 none)
          "m" d13 3 1 none).2.2.components 2 = some ⟨d13⟩ :=
  ⟨⟨(destroy_undoes_registration rt_empty "m" d44 d13 3 1 none (by decide) (by decide)
      (by decide) (by decide)).2.1,
    (destroy_undoes_registration rt_empty "m" d44 d13 3 1 none (by decide) (by decide)
      (by decide) (by decide)).2.2.1⟩, by decide, by decide⟩

/-- C10 as stated fails in two ways.  When the name is bound already: with
(`dist_matrix_m`, `1`) bound to the id `9`, constructing `m` on site `1`
leaves that binding in place and destroying the new array removes it, so
the names are not bound as before the construction.  And when another site
has cached the id: the matrix `m` of site `2` has resolved site `1` to the
partition `1`; after the matrix of site `1` is destroyed and constructed
anew, the name service maps the name to the new partition `3`, which holds
the new data, but the matrix of site `2` still resolves site `1` to the
partition `1`. -/
theorem destroy_undoes_registration_counterexample :
    (rt_bound.symbols = [(("dist_matrix_m", 1), 9)]
      ∧ (distributed_matrix.construct rt_bound "m" d44 3 1 none).1 = .returned ()
      ∧ (distributed_matrix.construct rt_bound "m" d44 3 1 none).2.2.symbols
          = [(("dist_matrix_m", 1), 9)]
      ∧ (construct_then_destroy rt_bound "m" d44 3 1 none).symbols = []
      ∧ (construct_then_destroy rt_bound "m" d44 3 1 none).symbols ≠ rt_bound.symbols)
    ∧ (map_find rt_empty.symbols (name_from_basename "dist_matrix_m" 1) = none
      ∧ (dm_m2.get_part_id rt_m12 1 []).1 = .returned 1
      ∧ map_find dm_m2_cached.part_ids_ 1 = some 1
      ∧ map_find rt_m1_rebuilt.symbols (name_from_basename "dist_matrix_m" 1) = some 3
      ∧ map_find rt_m1_rebuilt.components 3 = some ⟨d13⟩
      ∧ (dm_m2_cached.get_part_id rt_m1_rebuilt 1 []).1 = .returned 1
      ∧ map_find rt_m1_rebuilt.components 1 = some ⟨d44⟩) := by
  decide

end phylanx.util

/-! ## Properties of the parts of a name -/

namespace phylanx.execution_tree.compiler

/-- C13: a default constructed `primitive_name_parts` has
`sequence_number = -1`, `compile_id = -1` and `tag = -1`, and its
`primitive` and `instance` are empty. -/
theorem default_primitive_name_parts :
    ({} : primitive_name_parts).sequence_number = -1
    ∧ ({} : primitive_name_parts).compile_id = -1
    ∧ ({} : primitive_name_parts).tag = -1
    ∧ ({} : primitive_name_parts).primitive = ""
    ∧ ({} : primitive_name_parts).instance_ = ""
    ∧ ({} : primitive_name_parts) = ⟨"", -1, "", -1, -1⟩ :=
  ⟨rfl, rfl, rfl, rfl, rfl, rfl⟩

end phylanx.execution_tree.compiler

/-! ## Properties of the shuffle operation -/

namespace phylanx.execution_tree.primitives

open phylanx.util (exception future DynamicMatrix)
open phylanx.ir (node_data)

/-! ### Validation of the operands -/

theorem foldl_valid {α : Type} (operands : List (primitive_argument_type α)) :
    ∀ ok : Bool,
      operands.foldl (fun ok operand => if !valid operand then false else ok) ok
        = (ok && operands.all valid) := by
  induction operands with
  | nil => intro ok; simp
  | cons o t ih =>
    intro ok
    simp only [List.foldl_cons, List.all_cons]
    rw [ih]
    cases valid o <;> cases ok <;> simp

theorem arguments_valid_iff {α : Type} (operands : List (primitive_argument_type α)) :
    arguments_valid operands = true ↔ ∀ o ∈ operands, valid o = true := by
  unfold arguments_valid
  rw [foldl_valid]
  simp

/-- C11: when at least one operand is not valid, `eval` throws
`bad_parameter` with the message that `generate_error_message` makes of the
text, the name and the codename of the node; nothing is scheduled, no
operand is evaluated and `rand_machine` is untouched.  When every operand is
valid, `eval` does not throw: it returns the future of the scheduled body. -/
theorem eval_validates_operands {α : Type} (ext : externals α) (self : shuffle_operation α)
    (operands args : List (primitive_argument_type α)) (rand_machine : mt19937) :
    ((∃ o ∈ operands, valid o = false) →
      self.eval ext operands args rand_machine
        = (.threw ⟨.bad_parameter, "shuffle_operation::eval",
            ext.generate_error_message
              "the shuffle_operation primitive requires that the arguments given by the operands array are valid"
              self.name_ self.codename_⟩, rand_machine)
      ∧ ∀ f, (self.eval ext operands args rand_machine).1 ≠ .scheduled f)
    ∧ ((∀ o ∈ operands, valid o = true) →
      (∃ f, (self.eval ext operands args rand_machine).1 = .scheduled f)
      ∧ ∀ e, (self.eval ext operands args rand_machine).1 ≠ .threw e) := by
  constructor
  · rintro ⟨o, ho, hv⟩
    have hnot : arguments_valid operands = false := by
      cases h : arguments_valid operands with
      | false => rfl
      | true =>
        have := (arguments_valid_iff operands).mp h o ho
        rw [hv] at this
        exact absurd this (by simp)
    have heq : self.eval ext operands args rand_machine
        = (.threw ⟨.bad_parameter, "shuffle_operation::eval",
            ext.generate_error_message
              "the shuffle_operation primitive requires that the arguments given by the operands array are valid"
              self.name_ self.codename_⟩, rand_machine) := by
      unfold shuffle_operation.eval
      simp [hnot]
    refine ⟨heq, ?_⟩
    intro f
    rw [heq]
    simp
  · intro hall
    have hok : arguments_valid operands = true := (arguments_valid_iff operands).mpr hall
    unfold shuffle_operation.eval
    simp only [hok, Bool.not_true, Bool.false_eq_true, if_false]
    cases unwrapping (operands.map
        (fun operand => ext.numeric_operand operand args self.name_ self.codename_)) with
    | error e => exact ⟨⟨_, rfl⟩, fun e => by simp⟩
    | ok resolved => exact ⟨⟨_, rfl⟩, fun e => by simp⟩

/-- C11 for the operands `[1, 2, 3]` and `nil`. -/
theorem eval_validates_operands_witness :
    node_bare.eval ext_plain [.numeric (.vector [1, 2, 3]), .nil] [] g_counting
        = (.threw ⟨.bad_parameter, "shuffle_operation::eval",
            ext_plain.generate_error_message
              "the shuffle_operation primitive requires that the arguments given by the operands array are valid"
              node_bare.name_ node_bare.codename_⟩, g_counting)
      ∧ ∀ f, (node_bare.eval ext_plain [.numeric (.vector [1, 2, 3]), .nil] [] g_counting).1
          ≠ .scheduled f :=
  (eval_validates_operands ext_plain node_bare [.numeric (.vector [1, 2, 3]), .nil] []
    g_counting).1 ⟨.nil, by simp, rfl⟩

/-! ### The dispatch on the number of dimensions -/

/-- With valid operands that all resolve, `eval` schedules the body on the
resolved values. -/
theorem eval_schedules_body {α : Type} (ext : externals α) (self : shuffle_operation α)
    (operands args : List (primitive_argument_type α)) (rand_machine : mt19937)
    (resolved : List (node_data α))
    (hvalid : arguments_valid operands = true)
    (hres : unwrapping (operands.map
      (fun operand => ext.numeric_operand operand args self.name_ self.codename_))
      = .ok resolved) :
    self.eval ext operands args rand_machine
      = (.scheduled (self.body ext resolved rand_machine).1,
          (self.body ext resolved rand_machine).2) := by
  unfold shuffle_operation.eval
  simp only [hvalid, Bool.not_true, Bool.false_eq_true, if_false, hres]

/-- C12, as amended: once the operands are resolved, a first operand of one
dimension is handled by `shuffle_1d` and one of two dimensions by
`shuffle_2d`; for every other number of dimensions the body throws
`bad_parameter` whose message is made by `generate_error_message` of the
fixed text `operand has an unsupported number of dimensions. Only possible
values are: 1 or 2.`, the name and the codename of the node, so that the
error is the same whatever the number of dimensions of the operand is. -/
theorem body_dispatches_on_rank {α : Type} (ext : externals α) (self : shuffle_operation α)
    (a : node_data α) (rest : List (node_data α)) (rand_machine : mt19937) :
    (a.num_dimensions = 1 →
      self.body ext (a :: rest) rand_machine
        = shuffle_operation.shuffle_1d (a :: rest) rand_machine)
    ∧ (a.num_dimensions = 2 →
      self.body ext (a :: rest) rand_machine
        = shuffle_operation.shuffle_2d (a :: rest) rand_machine)
    ∧ (a.num_dimensions ≠ 1 → a.num_dimensions ≠ 2 →
      self.body ext (a :: rest) rand_machine
        = (.raised ⟨.bad_parameter, "shuffle_operation::eval",
            ext.generate_error_message
              "operand has an unsupported number of dimensions. Only possible values are: 1 or 2."
              self.name_ self.codename_⟩, rand_machine))
    ∧ (∀ (b : node_data α) (rest2 : List (node_data α)),
      a.num_dimensions ≠ 1 → a.num_dimensions ≠ 2 →
      b.num_dimensions ≠ 1 → b.num_dimensions ≠ 2 →
      (self.body ext (a :: rest) rand_machine).1 = (self.body ext (b :: rest2) rand_machine).1)
    ∧ (∀ (operands args : List (primitive_argument_type α)),
      arguments_valid operands = true →
      unwrapping (operands.map
        (fun operand => ext.numeric_operand operand args self.name_ self.codename_))
        = .ok (a :: rest) →
      self.eval ext operands args rand_machine
        = (.scheduled (self.body ext (a :: rest) rand_machine).1,
            (self.body ext (a :: rest) rand_machine).2)) := by
  have hother : ∀ (b : node_data α) (r : List (node_data α)),
      b.num_dimensions ≠ 1 → b.num_dimensions ≠ 2 →
      self.body ext (b :: r) rand_machine
        = (.raised ⟨.bad_parameter, "shuffle_operation::eval",
            ext.generate_error_message
              "operand has an unsupported number of dimensions. Only possible values are: 1 or 2."
              self.name_ self.codename_⟩, rand_machine) := by
    intro b r h1 h2
    cases b with
    | scalar s => rfl
    | vector v => exact absurd rfl h1
    | matrix m => exact absurd rfl h2
    | tensor t => rfl
  refine ⟨?_, ?_, hother a rest, ?_, ?_⟩
  · intro h
    cases a with
    | vector v => rfl
    | scalar s => simp [node_data.num_dimensions] at h
    | matrix m => simp [node_data.num_dimensions] at h
    | tensor t => simp [node_data.num_dimensions] at h
  · intro h
    cases a with
    | matrix m => rfl
    | scalar s => simp [node_data.num_dimensions] at h
    | vector v => simp [node_data.num_dimensions] at h
    | tensor t => simp [node_data.num_dimensions] at h
  · intro b rest2 ha1 ha2 hb1 hb2
    rw [hother a rest ha1 ha2, hother b rest2 hb1 hb2]
  · intro operands args hvalid hres
    exact eval_schedules_body ext self operands args rand_machine (a :: rest) hvalid hres

/-- C12 for a scalar operand. -/
theorem body_dispatches_on_rank_witness :
    node_bare.body ext_plain [.scalar 3] g_counting
      = (.raised ⟨.bad_parameter, "shuffle_operation::eval",
          ext_plain.generate_error_message
            "operand has an unsupported number of dimensions. Only possible values are: 1 or 2."
            node_bare.name_ node_bare.codename_⟩, g_counting) :=
  (body_dispatches_on_rank ext_plain node_bare (.scalar 3) [] g_counting).2.2.1
    (by decide) (by decide)

/-- C12 as stated fails: a scalar has no dimension and a tensor has three,
yet the body throws the very same error, with the very same message, for
both; the message of the one does not name `0` as the number of dimensions
nor that of the other `3`. -/
theorem body_dispatches_on_rank_counterexample :
    (node_data.scalar 3 : node_data Nat).num_dimensions = 0
    ∧ (node_data.tensor [[[3]]] : node_data Nat).num_dimensions = 3
    ∧ (node_bare.body ext_plain [.scalar 3] g_counting).1
        = (node_bare.body ext_plain [.tensor [[[3]]]] g_counting).1
    ∧ (node_bare.body ext_plain [.scalar 3] g_counting).1
        = .raised ⟨.bad_parameter, "shuffle_operation::eval",
            "/phylanx/shuffle_operation#0/0#1(test): operand has an unsupported number of dimensions. Only possible values are: 1 or 2."⟩ := by
  decide

/-! ### The first resolved operand -/

/-- C16 fails on the code: a node that stores no operands and is called
without arguments passes the validation (there is no operand to find
invalid), the body is scheduled on an empty sequence of resolved operands
and reads `args[0]` of it. -/
theorem eval_args_without_operands {α : Type} (ext : externals α) (name codename : String)
    (rand_machine : mt19937) :
    arguments_valid ([] : List (primitive_argument_type α)) = true
    ∧ shuffle_operation.eval_args ext (⟨[], name, codename⟩ : shuffle_operation α) []
        rand_machine = (.scheduled .undefined, rand_machine)
    ∧ shuffle_operation.body ext (⟨[], name, codename⟩ : shuffle_operation α) [] rand_machine
        = (.undefined, rand_machine) :=
  ⟨rfl, rfl, rfl⟩

/-! ### The kernels -/

/-- Writing the elements of two positions into each other's place permutes
the list. -/
theorem set_set_perm {β : Type} (v : List β) (i j : Nat) (a b : β)
    (hi : v[i]? = some a) (hj : v[j]? = some b) : ((v.set i b).set j a).Perm v := by
  classical
  obtain ⟨hi', hia⟩ := List.getElem?_eq_some.mp hi
  obtain ⟨hj', hjb⟩ := List.getElem?_eq_some.mp hj
  have hj2 : j < (v.set i b).length := by rw [List.length_set]; exact hj'
  have hget : (v.set i b)[j] = b := by
    rw [List.getElem_set]
    split
    · rfl
    · exact hjb
  rw [List.perm_iff_count]
  intro c
  rw [List.count_set _ _ _ _ hj2, List.count_set _ _ _ _ hi', hget, hia]
  have hmem : a ∈ v := hia ▸ List.getElem_mem hi'
  have hpos : a = c → 0 < v.count c := fun e => e ▸ List.count_pos_iff.mpr hmem
  by_cases hac : a = c
  · have hc := hpos hac
    by_cases hbc : b = c
    all_goals (try simp only [beq_iff_eq, hac, hbc, if_true, if_false])
    all_goals omega
  · by_cases hbc : b = c
    all_goals (try simp only [beq_iff_eq, hac, hbc, if_true, if_false])
    all_goals omega

theorem iter_swap_perm {α : Type} (x : List α) (i j : Nat) : (iter_swap x i j).Perm x := by
  unfold iter_swap
  split
  · rename_i a b hi hj
    exact set_set_perm x i j a b hi hj
  · exact List.Perm.refl _

/-- The swap of two rows of equal length exchanges them whole. -/
theorem swap_rows_of_equal_length {α : Type} :
    ∀ (x y : List α), x.length = y.length → blaze.swap x y = (y, x)
  | [], [], _ => rfl
  | [], _ :: _, h => by simp at h
  | _ :: _, [], h => by simp at h
  | a :: x, b :: y, h => by
    have ih := swap_rows_of_equal_length x y (by simpa using h)
    simp [blaze.swap, ih]

theorem iter_swap_rows_perm {α : Type} (v : List (List α)) (n i j : Nat)
    (hrows : ∀ r ∈ v, r.length = n) : (iter_swap_rows v i j).Perm v := by
  unfold iter_swap_rows
  split
  · rename_i x y hi hj
    split
    · exact List.Perm.refl _
    · obtain ⟨hi', hix⟩ := List.getElem?_eq_some.mp hi
      obtain ⟨hj', hjy⟩ := List.getElem?_eq_some.mp hj
      have hx : x ∈ v := hix ▸ List.getElem_mem hi'
      have hy : y ∈ v := hjy ▸ List.getElem_mem hj'
      rw [swap_rows_of_equal_length x y (by rw [hrows x hx, hrows y hy])]
      exact set_set_perm v i j x y hi hj
  · exact List.Perm.refl _

/-- The loop of `std::shuffle` permutes, when each `iter_swap` it makes on a
permutation of the input does. -/
theorem shuffle_loop_perm {β : Type} (sw : List β → Nat → Nat → List β) (x0 : List β)
    (hsw : ∀ x i j, x.Perm x0 → (sw x i j).Perm x) :
    ∀ (count i : Nat) (x : List β) (g : mt19937), x.Perm x0 →
      (shuffle_loop sw count i x g).1.Perm x0 := by
  intro count
  induction count with
  | zero => intro i x g h; exact h
  | succ count ih =>
    intro i x g h
    unfold shuffle_loop
    apply ih
    exact (hsw x i _ h).trans h

/-- C15: for every state of the generator, `shuffle_1d` returns a vector of
the length of its input whose elements are a rearrangement of those of the
input; `shuffle_2d` returns, for a matrix of `m_` rows of `n_` elements, a
matrix of the same dimensions whose rows are a rearrangement of the rows of
the input, each row being one of the input rows as it was; and the swap of
two rows of equal length exchanges the two rows whole. -/
theorem shuffle_kernels_permute {α : Type} (rand_machine : mt19937) :
    (∀ (v : List α) (rest : List (node_data α)),
      ∃ w, (shuffle_operation.shuffle_1d (.vector v :: rest) rand_machine).1
          = .result (.numeric (.vector w))
        ∧ w.length = v.length ∧ w.Perm v)
    ∧ (∀ (m : DynamicMatrix α) (rest : List (node_data α)), m.wf →
      ∃ w, (shuffle_operation.shuffle_2d (.matrix m :: rest) rand_machine).1
          = .result (.numeric (.matrix w))
        ∧ w.rows = m.rows ∧ w.columns = m.columns ∧ w.wf
        ∧ w.v_.Perm m.v_ ∧ ∀ r, r ∈ w.v_ ↔ r ∈ m.v_)
    ∧ (∀ x y : List α, x.length = y.length → blaze.swap x y = (y, x)) := by
  refine ⟨?_, ?_, swap_rows_of_equal_length⟩
  · intro v rest
    have hp : (std_shuffle iter_swap v.length v rand_machine).1.Perm v :=
      shuffle_loop_perm iter_swap v (fun x i j _ => iter_swap_perm x i j) _ _ _ _
        (List.Perm.refl v)
    exact ⟨_, rfl, hp.length_eq, hp⟩
  · intro m rest hwf
    obtain ⟨hlen, hrows⟩ := hwf
    have hp : (std_shuffle iter_swap_rows m.rows m.v_ rand_machine).1.Perm m.v_ :=
      shuffle_loop_perm iter_swap_rows m.v_
        (fun x i j hx => iter_swap_rows_perm x m.n_ i j
          (fun r hr => hrows r (hx.mem_iff.mp hr))) _ _ _ _ (List.Perm.refl _)
    refine ⟨{ m with v_ := (std_shuffle iter_swap_rows m.rows m.v_ rand_machine).1 }, rfl, rfl,
      rfl, ⟨?_, ?_⟩, hp, fun r => hp.mem_iff⟩
    · show (std_shuffle iter_swap_rows m.rows m.v_ rand_machine).1.length = m.m_
      rw [hp.length_eq]; exact hlen
    · intro r hr
      exact hrows r (hp.mem_iff.mp hr)

/-- C15 for the matrix of three rows `[1, 2]`, `[3, 4]`, `[5, 6]` and the
generator that counts. -/
theorem shuffle_kernels_permute_witness :
    (∃ w, (shuffle_operation.shuffle_2d [.matrix m32] g_counting).1
          = .result (.numeric (.matrix w))
        ∧ w.rows = m32.rows ∧ w.columns = m32.columns ∧ w.wf
        ∧ w.v_.Perm m32.v_ ∧ ∀ r, r ∈ w.v_ ↔ r ∈ m32.v_)
    ∧ (shuffle_operation.shuffle_2d [.matrix m32] g_counting).1
        = .result (.numeric (.matrix ⟨3, 2, 2, 6, [[3, 4], [5, 6], [1, 2]]⟩))
    ∧ (shuffle_operation.shuffle_1d [.vector [10, 20, 30, 40]] g_counting).1
        = .result (.numeric (.vector [20, 30, 40, 10])) :=
  ⟨(shuffle_kernels_permute g_counting).2.1 m32 [] (by unfold DynamicMatrix.wf; decide),
    by decide, by decide⟩

end phylanx.execution_tree.primitives

